import Mathlib

/-!
# CoreMutex (cores/rp2040/CoreMutex.cpp)

A shallow embedding of the scoped mutex guard of the RP2040 Arduino core.
The two constructors and the destructor are written as programs over the
external primitives they call (the pico-sdk lock functions, the FreeRTOS
shims, the core-identity query and the debug sink).  A program is run against
a handler that answers each primitive call; the handler used for the concrete
results models the lock objects by the contract the specification gives them.
-/

namespace CoreMutex

/-- Address of a `mutex_t` or `recursive_mutex_t` object. -/
abbrev Handle := Nat

/-- A kernel-native mutex (`SemaphoreHandle_t`). -/
abbrev KMutex := Nat

/-- The external functions called by `CoreMutex.cpp`, with their value arguments.
Out-parameters passed by pointer appear as the value held before the call; the
value held after the call is part of the response. -/
inductive Prim where
  | __get_freertos_mutex_for_ptr (m : Handle) (recursive : Bool)
  | __freertos_check_if_in_isr
  | __freertos_mutex_take_from_isr (m : KMutex) (pxHigherPriorityTaskWoken : Int)
  | __freertos_mutex_take (m : KMutex)
  | __freertos_mutex_give_from_isr (m : KMutex) (pxHigherPriorityTaskWoken : Int)
  | __freertos_mutex_give (m : KMutex)
  | mutex_try_enter (m : Handle)
  | recursive_mutex_try_enter (m : Handle)
  | get_core_num
  | DEBUGCORE (msg : String)
  | mutex_enter_blocking (m : Handle)
  | recursive_mutex_enter_blocking (m : Handle)
  | mutex_exit (m : Handle)
  | recursive_mutex_exit (m : Handle)
  deriving DecidableEq, Repr

/-- What a primitive hands back: its return value, paired with the new value of
its out-parameter when it has one. -/
@[reducible]
def Prim.Resp : Prim → Type
  | .__get_freertos_mutex_for_ptr _ _ => KMutex
  | .__freertos_check_if_in_isr => Bool
  | .__freertos_mutex_take_from_isr _ _ => Bool × Int
  | .__freertos_mutex_take _ => Unit
  | .__freertos_mutex_give_from_isr _ _ => Int
  | .__freertos_mutex_give _ => Unit
  | .mutex_try_enter _ => Bool × Nat
  | .recursive_mutex_try_enter _ => Bool × Nat
  | .get_core_num => Nat
  | .DEBUGCORE _ => Unit
  | .mutex_enter_blocking _ => Unit
  | .recursive_mutex_enter_blocking _ => Unit
  | .mutex_exit _ => Unit
  | .recursive_mutex_exit _ => Unit

/-- A program: either finished with a value, or about to call a primitive and
continue with its response. -/
inductive Prog (α : Type) where
  | ret (a : α) : Prog α
  | op (p : Prim) (k : Prim.Resp p → Prog α) : Prog α

/-- Sequencing of programs. -/
def Prog.bind {α β : Type} : Prog α → (α → Prog β) → Prog β
  | .ret a, f => f a
  | .op p k, f => .op p (fun r => Prog.bind (k r) f)

instance : Monad Prog where
  pure := Prog.ret
  bind := Prog.bind

/-- A single call of a primitive. -/
def call (p : Prim) : Prog (Prim.Resp p) := Prog.op p Prog.ret

/-- The data members of a `CoreMutex` object. -/
structure Guard where
  _mutex : Handle
  _acquired : Bool
  _option : Nat
  _pxHigherPriorityTaskWoken : Int
  _recursive : Bool
  deriving DecidableEq, Repr

/-- Modelled from the spec: the declaration of `__get_freertos_mutex_for_ptr` is
not in the source file; the plain constructor calls it with one argument, and
the reentrancy flag it then receives is the plain (non-reentrant) one. -/
def get_freertos_mutex_for_ptr_default : Bool := false

/-- `CoreMutex::CoreMutex(recursive_mutex_t *mutex, uint8_t option)`.
The parameter `__isFreeRTOS` is the global flag of that name; `DebugEnable` is the
option mask of that name, declared in the header and taken as a parameter. -/
def ctor_recursive_mutex_t (__isFreeRTOS : Bool) (DebugEnable : Nat)
    (mutex : Handle) (option : Nat) : Prog Guard := do
  let mut self : Guard :=
    { _mutex := mutex, _acquired := false, _option := option,
      _pxHigherPriorityTaskWoken := 0, _recursive := true }
  if __isFreeRTOS then
    let m ← call (.__get_freertos_mutex_for_ptr mutex true)
    let in_isr ← call .__freertos_check_if_in_isr
    if in_isr then
      let r ← call (.__freertos_mutex_take_from_isr m self._pxHigherPriorityTaskWoken)
      self := { self with _pxHigherPriorityTaskWoken := r.2 }
      if !r.1 then
        return self
    else
      call (.__freertos_mutex_take m)
  else
    let r ← call (.recursive_mutex_try_enter self._mutex)
    let owner := r.2
    if !r.1 then
      let core ← call .get_core_num
      if owner == core then
        if self._option &&& DebugEnable != 0 then
          call (.DEBUGCORE "CoreMutex - Deadlock detected!\n")
        return self
      call (.recursive_mutex_enter_blocking self._mutex)
  self := { self with _acquired := true }
  return self

/-- `CoreMutex::CoreMutex(mutex_t *mutex, uint8_t option)`. -/
def ctor_mutex_t (__isFreeRTOS : Bool) (DebugEnable : Nat)
    (mutex : Handle) (option : Nat) : Prog Guard := do
  let mut self : Guard :=
    { _mutex := mutex, _acquired := false, _option := option,
      _pxHigherPriorityTaskWoken := 0, _recursive := false }
  if __isFreeRTOS then
    let m ← call (.__get_freertos_mutex_for_ptr mutex get_freertos_mutex_for_ptr_default)
    let in_isr ← call .__freertos_check_if_in_isr
    if in_isr then
      let r ← call (.__freertos_mutex_take_from_isr m self._pxHigherPriorityTaskWoken)
      self := { self with _pxHigherPriorityTaskWoken := r.2 }
      if !r.1 then
        return self
    else
      call (.__freertos_mutex_take m)
  else
    let r ← call (.mutex_try_enter self._mutex)
    let owner := r.2
    if !r.1 then
      let core ← call .get_core_num
      if owner == core then
        if self._option &&& DebugEnable != 0 then
          call (.DEBUGCORE "CoreMutex - Deadlock detected!\n")
        return self
      call (.mutex_enter_blocking self._mutex)
  self := { self with _acquired := true }
  return self

/-- `CoreMutex::~CoreMutex()`. -/
def dtor (__isFreeRTOS : Bool) (self : Guard) : Prog Unit := do
  if self._acquired then
    if __isFreeRTOS then
      let m ← call (.__get_freertos_mutex_for_ptr self._mutex self._recursive)
      let in_isr ← call .__freertos_check_if_in_isr
      if in_isr then
        let _ ← call (.__freertos_mutex_give_from_isr m self._pxHigherPriorityTaskWoken)
      else
        call (.__freertos_mutex_give m)
    else
      if self._recursive then
        call (.recursive_mutex_exit self._mutex)
      else
        call (.mutex_exit self._mutex)

/-- Overload selection: the constructor taking `recursive_mutex_t*` when
`recursive` is true, the one taking `mutex_t*` otherwise. -/
def ctor (recursive __isFreeRTOS : Bool) (DebugEnable : Nat) (mutex : Handle) (option : Nat) :
    Prog Guard :=
  if recursive then ctor_recursive_mutex_t __isFreeRTOS DebugEnable mutex option
  else ctor_mutex_t __isFreeRTOS DebugEnable mutex option

/-! ## Running a program -/

/-- How the environment answers a primitive call made in state `s`: `none` when
the call never returns, otherwise the response and the state left behind. -/
abbrev Handler (σ : Type) := (p : Prim) → σ → Option (Prim.Resp p × σ)

/-- What a run leaves: the primitives invoked, in order; the returned value, or
`none` when the last invoked primitive never returned; the state reached. -/
structure Outcome (α σ : Type) where
  trace : List Prim
  result : Option α
  final : σ

/-- Run a program to its end, or up to the call that never returns. -/
def Prog.run {α σ : Type} (H : Handler σ) : Prog α → σ → Outcome α σ
  | .ret a, s => { trace := [], result := some a, final := s }
  | .op p k, s =>
    match H p s with
    | none => { trace := [p], result := none, final := s }
    | some (r, s1) =>
      let o := Prog.run H (k r) s1
      { trace := p :: o.trace, result := o.result, final := o.final }

/-- One primitive call of a program: the call made, the rest of the program and
the new state; `none` when the program has finished or the call cannot return
in this state. -/
def Prog.step {α σ : Type} (H : Handler σ) : Prog α → σ → Option (Prim × Prog α × σ)
  | .ret _, _ => none
  | .op p k, s =>
    match H p s with
    | none => none
    | some (r, s1) => some (p, k r, s1)

/-- The blocking acquisitions. -/
def Prim.isBlocking : Prim → Bool
  | .__freertos_mutex_take _ => true
  | .mutex_enter_blocking _ => true
  | .recursive_mutex_enter_blocking _ => true
  | _ => false

/-- The release calls. -/
def Prim.isRelease : Prim → Bool
  | .__freertos_mutex_give_from_isr _ _ => true
  | .__freertos_mutex_give _ => true
  | .mutex_exit _ => true
  | .recursive_mutex_exit _ => true
  | _ => false

/-- The non-blocking acquisition of a lock kind. -/
def tryEnter (recursive : Bool) (m : Handle) : Prim :=
  if recursive then .recursive_mutex_try_enter m else .mutex_try_enter m

/-- The blocking acquisition of a lock kind. -/
def enterBlocking (recursive : Bool) (m : Handle) : Prim :=
  if recursive then .recursive_mutex_enter_blocking m else .mutex_enter_blocking m

/-- The release of a lock kind. -/
def exitLock (recursive : Bool) (m : Handle) : Prim :=
  if recursive then .recursive_mutex_exit m else .mutex_exit m

/-- The reentrancy flag a constructor passes to the kernel-mutex lookup. -/
def lookupFlag (recursive : Bool) : Bool :=
  if recursive then true else get_freertos_mutex_for_ptr_default

/-! ## The lock objects -/

/-- Modelled from the spec: a recursive lock object "tracks an owner identity and a
nesting count"; `owner = none` is the free lock. -/
structure RecursiveMutex where
  owner : Option Nat
  enter_count : Nat
  deriving DecidableEq, Repr

/-- Modelled from the spec: the state the collaborators of section 6 keep.  A plain
lock tracks only its owner (`none` when free); the kernel mutex mapping sends a
handle and a reentrancy flag to a native mutex; a native mutex is held or not;
`kernel_woken m t` is the wake token an interrupt-safe call on `m` leaves in an
out-parameter that held `t`. -/
structure World where
  mutex : Handle → Option Nat
  recursive_mutex : Handle → RecursiveMutex
  kernel_mutex : Handle → Bool → KMutex
  kernel_held : KMutex → Bool
  kernel_woken : KMutex → Int → Int

/-- The calling context: the core the caller runs on, what the interrupt-context
detector reports for it, and the indeterminate value of an uninitialised local. -/
structure Ctx where
  core : Nat
  in_isr : Bool
  uninit : Nat
  deriving DecidableEq, Repr

/-- The recursive lock after one more entry by `core`. -/
def RecursiveMutex.entered (x : RecursiveMutex) (core : Nat) : RecursiveMutex :=
  { owner := some core, enter_count := x.enter_count + 1 }

/-- The recursive lock after one exit: the count drops by one and the owner is
cleared when it reaches zero. -/
def RecursiveMutex.exited (x : RecursiveMutex) : RecursiveMutex :=
  { owner := if x.enter_count - 1 = 0 then none else x.owner, enter_count := x.enter_count - 1 }

/-- The world after `core` entered the recursive lock `m` once more. -/
def World.enterRecursive (w : World) (m : Handle) (core : Nat) : World :=
  { w with recursive_mutex := Function.update w.recursive_mutex m ((w.recursive_mutex m).entered core) }

/-- The world after one exit of the recursive lock `m`. -/
def World.exitRecursive (w : World) (m : Handle) : World :=
  { w with recursive_mutex := Function.update w.recursive_mutex m (w.recursive_mutex m).exited }

/-- Modelled from the spec: the collaborator contracts of section 6.  Plain lock:
"atomic try-acquire returning success/failure plus current-owner identity;
blocking acquire with no timeout; unconditional release".  Recursive lock: "same
as plain, but try-acquire/release honor nested-ownership counting by owner
identity".  Kernel primitives: a blocking take, an interrupt-safe take that
fails when the mutex is held and otherwise writes a wake token, and the two
releases.  A blocking acquire of a lock that is not available never returns
(`none`): nothing else runs during a sequential run. -/
def handle (c : Ctx) : Handler World
  | .__get_freertos_mutex_for_ptr m r, w => some (w.kernel_mutex m r, w)
  | .__freertos_check_if_in_isr, w => some (c.in_isr, w)
  | .__freertos_mutex_take_from_isr m t, w =>
    if w.kernel_held m then some ((false, t), w)
    else some ((true, w.kernel_woken m t),
      { w with kernel_held := Function.update w.kernel_held m true })
  | .__freertos_mutex_take m, w =>
    if w.kernel_held m then none
    else some ((), { w with kernel_held := Function.update w.kernel_held m true })
  | .__freertos_mutex_give_from_isr m t, w =>
    some (w.kernel_woken m t, { w with kernel_held := Function.update w.kernel_held m false })
  | .__freertos_mutex_give m, w =>
    some ((), { w with kernel_held := Function.update w.kernel_held m false })
  | .mutex_try_enter m, w =>
    match w.mutex m with
    | none => some ((true, c.uninit), { w with mutex := Function.update w.mutex m (some c.core) })
    | some o => some ((false, o), w)
  | .recursive_mutex_try_enter m, w =>
    match (w.recursive_mutex m).owner with
    | none => some ((true, c.uninit), w.enterRecursive m c.core)
    | some o =>
      if o = c.core then some ((true, c.uninit), w.enterRecursive m c.core)
      else some ((false, o), w)
  | .get_core_num, w => some (c.core, w)
  | .DEBUGCORE _, w => some ((), w)
  | .mutex_enter_blocking m, w =>
    match w.mutex m with
    | none => some ((), { w with mutex := Function.update w.mutex m (some c.core) })
    | some _ => none
  | .recursive_mutex_enter_blocking m, w =>
    match (w.recursive_mutex m).owner with
    | none => some ((), w.enterRecursive m c.core)
    | some o =>
      if o = c.core then some ((), w.enterRecursive m c.core)
      else none
  | .mutex_exit m, w => some ((), { w with mutex := Function.update w.mutex m none })
  | .recursive_mutex_exit m, w =>
    some ((), w.exitRecursive m)

/-! ## Sequential compositions used by the results -/

/-- Nested construction, bare-metal, of one recursive-lock guard per option byte
of the list by one caller; the guards come back most recent first, with the
calls made and the world reached. -/
def nest (c : Ctx) (DebugEnable : Nat) (mutex : Handle) :
    List Nat → World → Option (List Guard × List Prim × World)
  | [], w => some ([], [], w)
  | option :: rest, w =>
    let r := (ctor_recursive_mutex_t false DebugEnable mutex option).run (handle c) w
    match r.result with
    | none => none
    | some g =>
      match nest c DebugEnable mutex rest r.final with
      | none => none
      | some (gs, tr, w1) => some (gs ++ [g], r.trace ++ tr, w1)

/-- Destruction, bare-metal, of the first `k` guards of the list (the most recent
ones, so in reverse order of construction) by one caller. -/
def unnest (c : Ctx) : Nat → List Guard → World → Option World
  | 0, _, w => some w
  | _ + 1, [], _ => none
  | k + 1, g :: gs, w =>
    let r := (dtor false g).run (handle c) w
    match r.result with
    | none => none
    | some _ => unnest c k gs r.final

/-! ## Two cores: guards as interleaved threads (bare-metal) -/

/-- A guard object together with the caller that constructs it: the program is
what is left of its constructor, `Prog.ret g` once construction has returned
the guard `g`. -/
structure Thread where
  ctx : Ctx
  prog : Prog Guard

/-- The shared lock state, the guard objects alive (by slot), and the primitive
calls completed so far with the slot that made each. -/
structure System where
  world : World
  guards : Nat → Option Thread
  log : List (Nat × Prim)

/-- The moves of the interleaving: a caller starts constructing a guard in a free
slot; a constructor performs its next primitive call; a constructed guard is
destroyed. -/
inductive Event where
  | construct (j : Nat) (c : Ctx) (recursive : Bool) (mutex : Handle) (option : Nat)
  | advance (j : Nat)
  | destroy (j : Nat)
  deriving DecidableEq, Repr

/-- One move in the bare-metal environment (`__isFreeRTOS` false).  A constructor
advances by one primitive call, which is atomic; a blocking acquire is a move
only once the lock is available.  The destructor, which makes at most one call
there, runs as one move. -/
def System.step (DebugEnable : Nat) (s : System) : Event → Option System
  | .construct j c recursive mutex option =>
    match s.guards j with
    | some _ => none
    | none =>
      some { s with guards :=
        Function.update s.guards j (some ⟨c, ctor recursive false DebugEnable mutex option⟩) }
  | .advance j =>
    match s.guards j with
    | none => none
    | some t =>
      match t.prog.step (handle t.ctx) s.world with
      | none => none
      | some (p, q, w) =>
        some { world := w, guards := Function.update s.guards j (some ⟨t.ctx, q⟩),
               log := s.log ++ [(j, p)] }
  | .destroy j =>
    match s.guards j with
    | some ⟨c, .ret g⟩ =>
      let o := (dtor false g).run (handle c) s.world
      match o.result with
      | none => none
      | some _ =>
        some { world := o.final, guards := Function.update s.guards j none,
               log := s.log ++ o.trace.map (fun p => (j, p)) }
    | _ => none

/-- A sequence of moves. -/
def System.exec (DebugEnable : Nat) : System → List Event → Option System
  | s, [] => some s
  | s, e :: es =>
    match s.step DebugEnable e with
    | none => none
    | some s1 => System.exec DebugEnable s1 es

/-- No guard exists yet; the locks are in any state. -/
def System.init (w : World) : System := { world := w, guards := fun _ => none, log := [] }

/-- The guard in slot `j`, once its constructor has returned. -/
def System.guard (s : System) (j : Nat) : Option Guard :=
  match s.guards j with
  | some ⟨_, .ret g⟩ => some g
  | _ => none

/-- The primitive the constructor in slot `j` is about to call (for a blocking
acquire: is waiting in). -/
def System.pending (s : System) (j : Nat) : Option Prim :=
  match s.guards j with
  | some ⟨_, .op p _⟩ => some p
  | _ => none

/-- Where a bare-metal constructor stands: before the try-acquire; after a failed
try-acquire that reported `owner`; before the diagnostic; before the blocking
acquire; returned with `_acquired` as given. -/
inductive Stage where
  | start
  | tried (owner : Nat)
  | diag
  | waiting
  | done (acquired : Bool)
  deriving DecidableEq, Repr

/-- The rest of the bare-metal constructor at each stage. -/
def stageProg (recursive : Bool) (DebugEnable : Nat) (mutex : Handle) (option : Nat) :
    Stage → Prog Guard
  | .start => ctor recursive false DebugEnable mutex option
  | .tried owner =>
    .op .get_core_num fun core =>
      if owner == core then
        if option &&& DebugEnable != 0 then
          .op (.DEBUGCORE "CoreMutex - Deadlock detected!\n") fun _ =>
            .ret ⟨mutex, false, option, 0, recursive⟩
        else .ret ⟨mutex, false, option, 0, recursive⟩
      else if recursive then
        .op (.recursive_mutex_enter_blocking mutex) fun _ => .ret ⟨mutex, true, option, 0, true⟩
      else .op (.mutex_enter_blocking mutex) fun _ => .ret ⟨mutex, true, option, 0, false⟩
  | .diag =>
    .op (.DEBUGCORE "CoreMutex - Deadlock detected!\n") fun _ =>
      .ret ⟨mutex, false, option, 0, recursive⟩
  | .waiting =>
    if recursive then
      .op (.recursive_mutex_enter_blocking mutex) fun _ => .ret ⟨mutex, true, option, 0, true⟩
    else .op (.mutex_enter_blocking mutex) fun _ => .ret ⟨mutex, true, option, 0, false⟩
  | .done acquired => .ret ⟨mutex, acquired, option, 0, recursive⟩

/-- A finished constructor whose guard holds the plain lock `mutex`. -/
def Prog.holds (p : Prog Guard) (mutex : Handle) : Prop :=
  match p with
  | .ret g => g._acquired = true ∧ g._recursive = false ∧ g._mutex = mutex
  | .op _ _ => False

/-- The answer of the environment to the try-acquire of the given lock kind. -/
def tryResult {σ : Type} (H : Handler σ) (recursive : Bool) (mutex : Handle) (s : σ) :
    Option ((Bool × Nat) × σ) :=
  if recursive then H (.recursive_mutex_try_enter mutex) s else H (.mutex_try_enter mutex) s

/-- The answer of the environment to the blocking acquire of the given lock kind. -/
def blockingResult {σ : Type} (H : Handler σ) (recursive : Bool) (mutex : Handle) (s : σ) :
    Option (Unit × σ) :=
  if recursive then H (.recursive_mutex_enter_blocking mutex) s
  else H (.mutex_enter_blocking mutex) s

/-- The owner of the lock of the given kind at `mutex` (`none` when free). -/
def lockOwner (w : World) (recursive : Bool) (mutex : Handle) : Option Nat :=
  if recursive then (w.recursive_mutex mutex).owner else w.mutex mutex

/-- What the mutual-exclusion argument maintains: every constructor is at one of
its stages; no two slots hold the same plain lock; a plain lock that some slot
holds is not free. -/
def Inv (DebugEnable : Nat) (s : System) : Prop :=
  (∀ j t, s.guards j = some t →
    ∃ recursive mutex option st, t.prog = stageProg recursive DebugEnable mutex option st) ∧
  (∀ i j ti tj m, s.guards i = some ti → s.guards j = some tj →
    ti.prog.holds m → tj.prog.holds m → i = j) ∧
  (∀ j t m, s.guards j = some t → t.prog.holds m → s.world.mutex m ≠ none)

/-- Sample world: every lock free. -/
def w0 : World :=
  { mutex := fun _ => none, recursive_mutex := fun _ => ⟨none, 0⟩,
    kernel_mutex := fun h r => 2 * h + (if r then 1 else 0),
    kernel_held := fun _ => false, kernel_woken := fun _ t => t + 1 }

/-- Sample world: the plain lock 5 is held by core 0. -/
def wHeld0 : World := { w0 with mutex := Function.update w0.mutex 5 (some 0) }

/-- Sample world: the plain lock 5 is held by core 1. -/
def wHeld1 : World := { w0 with mutex := Function.update w0.mutex 5 (some 1) }

/-- Sample world: every kernel mutex is held. -/
def wKernelHeld : World := { w0 with kernel_held := fun _ => true }

/-- Sample caller on core 0, task context. -/
def c0 : Ctx := { core := 0, in_isr := false, uninit := 99 }

/-- Sample caller on core 1, task context. -/
def c1 : Ctx := { core := 1, in_isr := false, uninit := 99 }

/-- Sample caller on core 0, interrupt context. -/
def c0isr : Ctx := { core := 0, in_isr := true, uninit := 99 }

/-- Sample interleaving: core 0 constructs a guard over the plain lock 5 in slot 0,
then a second one over the same lock in slot 1. -/
def demoEvents : List Event :=
  [.construct 0 c0 false 5 0, .advance 0, .construct 1 c0 false 5 0, .advance 1, .advance 1]

/-- The state the sample interleaving reaches from the all-free world. -/
def demoSystem : System :=
  (System.exec 1 (System.init w0) demoEvents).getD (System.init w0)

/-- The state after the first two moves of the sample interleaving: slot 0 holds
the plain lock 5 for core 0. -/
def demoHeld : System :=
  (System.exec 1 (System.init w0) [.construct 0 c0 false 5 0, .advance 0]).getD (System.init w0)

/-! ## Basic facts about programs -/

@[simp] theorem pure_eq_ret {α : Type} (a : α) : (pure a : Prog α) = Prog.ret a := rfl

@[simp] theorem ret_bind {α β : Type} (a : α) (f : α → Prog β) :
    (Prog.ret a >>= f) = f a := rfl

@[simp] theorem op_bind {α β : Type} (p : Prim) (k : Prim.Resp p → Prog α) (f : α → Prog β) :
    (Prog.op p k >>= f) = Prog.op p (fun r => k r >>= f) := rfl

@[simp] theorem call_bind {β : Type} (p : Prim) (f : Prim.Resp p → Prog β) :
    (call p >>= f) = Prog.op p f := rfl

@[simp] theorem run_ret {α σ : Type} (H : Handler σ) (a : α) (s : σ) :
    (Prog.ret a).run H s = { trace := [], result := some a, final := s } := rfl

theorem run_op_none {α σ : Type} (H : Handler σ) (p : Prim) (k : Prim.Resp p → Prog α) (s : σ)
    (h : H p s = none) :
    (Prog.op p k).run H s = { trace := [p], result := none, final := s } := by
  simp [Prog.run, h]

theorem run_op_some {α σ : Type} (H : Handler σ) (p : Prim) (k : Prim.Resp p → Prog α) (s : σ)
    (r : Prim.Resp p) (s1 : σ) (h : H p s = some (r, s1)) :
    (Prog.op p k).run H s =
      { trace := p :: ((k r).run H s1).trace, result := ((k r).run H s1).result,
        final := ((k r).run H s1).final } := by
  simp [Prog.run, h]

/-- The plain constructor, bare-metal, call by call. -/
theorem ctor_mutex_t_bare (D h o : Nat) :
    ctor_mutex_t false D h o =
      Prog.op (.mutex_try_enter h) (fun r =>
        if r.1 then Prog.ret ⟨h, true, o, 0, false⟩ else stageProg false D h o (.tried r.2)) := by
  simp only [ctor_mutex_t, stageProg, Bool.false_eq_true, if_false, call_bind, pure_eq_ret, ret_bind]
  congr 1
  funext r
  cases hr : r.1 <;> simp

/-- The recursive constructor, bare-metal, call by call. -/
theorem ctor_recursive_mutex_t_bare (D h o : Nat) :
    ctor_recursive_mutex_t false D h o =
      Prog.op (.recursive_mutex_try_enter h) (fun r =>
        if r.1 then Prog.ret ⟨h, true, o, 0, true⟩ else stageProg true D h o (.tried r.2)) := by
  simp only [ctor_recursive_mutex_t, stageProg, Bool.false_eq_true, if_false, call_bind,
    pure_eq_ret, ret_bind]
  congr 1
  funext r
  cases hr : r.1 <;> simp

/-- The plain constructor under the kernel, call by call. -/
theorem ctor_mutex_t_rtos (D h o : Nat) :
    ctor_mutex_t true D h o =
      Prog.op (.__get_freertos_mutex_for_ptr h false) (fun m =>
        Prog.op .__freertos_check_if_in_isr (fun in_isr =>
          if in_isr then
            Prog.op (.__freertos_mutex_take_from_isr m 0) (fun r => Prog.ret ⟨h, r.1, o, r.2, false⟩)
          else Prog.op (.__freertos_mutex_take m) (fun _ => Prog.ret ⟨h, true, o, 0, false⟩))) := by
  simp only [ctor_mutex_t, if_true, call_bind, pure_eq_ret, ret_bind,
    get_freertos_mutex_for_ptr_default]
  congr 1
  funext m
  congr 1
  funext in_isr
  cases in_isr <;> simp
  funext r
  cases hr : r.1 <;> simp [← hr]

/-- The recursive constructor under the kernel, call by call. -/
theorem ctor_recursive_mutex_t_rtos (D h o : Nat) :
    ctor_recursive_mutex_t true D h o =
      Prog.op (.__get_freertos_mutex_for_ptr h true) (fun m =>
        Prog.op .__freertos_check_if_in_isr (fun in_isr =>
          if in_isr then
            Prog.op (.__freertos_mutex_take_from_isr m 0) (fun r => Prog.ret ⟨h, r.1, o, r.2, true⟩)
          else Prog.op (.__freertos_mutex_take m) (fun _ => Prog.ret ⟨h, true, o, 0, true⟩))) := by
  simp only [ctor_recursive_mutex_t, if_true, call_bind, pure_eq_ret, ret_bind]
  congr 1
  funext m
  congr 1
  funext in_isr
  cases in_isr <;> simp
  funext r
  cases hr : r.1 <;> simp [← hr]

/-- The destructor of a guard that did not acquire makes no call. -/
theorem dtor_not_acquired (__isFreeRTOS : Bool) (g : Guard) (hg : g._acquired = false) :
    dtor __isFreeRTOS g = Prog.ret () := by
  simp [dtor, hg]

/-- The destructor of a guard that acquired, bare-metal. -/
theorem dtor_bare (g : Guard) (hg : g._acquired = true) :
    dtor false g = Prog.op (exitLock g._recursive g._mutex) (fun _ => Prog.ret ()) := by
  cases hr : g._recursive <;> simp [dtor, hg, hr, exitLock, call]

/-- The destructor of a guard that acquired, under the kernel. -/
theorem dtor_rtos (g : Guard) (hg : g._acquired = true) :
    dtor true g =
      Prog.op (.__get_freertos_mutex_for_ptr g._mutex g._recursive) (fun m =>
        Prog.op .__freertos_check_if_in_isr (fun in_isr =>
          if in_isr then
            Prog.op (.__freertos_mutex_give_from_isr m g._pxHigherPriorityTaskWoken)
              (fun _ => Prog.ret ())
          else Prog.op (.__freertos_mutex_give m) (fun _ => Prog.ret ()))) := by
  simp only [dtor, hg, if_true, call_bind]
  rfl

@[simp] theorem lookupFlag_false : lookupFlag false = false := rfl

@[simp] theorem lookupFlag_true : lookupFlag true = true := rfl

@[simp] theorem tryEnter_false (h : Handle) : tryEnter false h = .mutex_try_enter h := rfl

@[simp] theorem tryEnter_true (h : Handle) : tryEnter true h = .recursive_mutex_try_enter h := rfl

@[simp] theorem enterBlocking_false (h : Handle) :
    enterBlocking false h = .mutex_enter_blocking h := rfl

@[simp] theorem enterBlocking_true (h : Handle) :
    enterBlocking true h = .recursive_mutex_enter_blocking h := rfl

@[simp] theorem exitLock_false (h : Handle) : exitLock false h = .mutex_exit h := rfl

@[simp] theorem exitLock_true (h : Handle) : exitLock true h = .recursive_mutex_exit h := rfl

/-- The constructor of either kind under the kernel, run against any handler in
which the lookup returns `m` and the detector reports `in_isr`. -/
theorem run_ctor_rtos {σ : Type} (H : Handler σ) (s : σ) (recursive : Bool) (D h o : Nat)
    (m : KMutex) (s1 : σ) (in_isr : Bool) (s2 : σ)
    (hm : H (.__get_freertos_mutex_for_ptr h (lookupFlag recursive)) s = some (m, s1))
    (hisr : H .__freertos_check_if_in_isr s1 = some (in_isr, s2)) :
    (ctor recursive true D h o).run H s =
      if in_isr then
        match H (.__freertos_mutex_take_from_isr m 0) s2 with
        | none =>
          { trace := [.__get_freertos_mutex_for_ptr h (lookupFlag recursive),
              .__freertos_check_if_in_isr, .__freertos_mutex_take_from_isr m 0],
            result := none, final := s2 }
        | some (r, s3) =>
          { trace := [.__get_freertos_mutex_for_ptr h (lookupFlag recursive),
              .__freertos_check_if_in_isr, .__freertos_mutex_take_from_isr m 0],
            result := some ⟨h, r.1, o, r.2, recursive⟩, final := s3 }
      else
        match H (.__freertos_mutex_take m) s2 with
        | none =>
          { trace := [.__get_freertos_mutex_for_ptr h (lookupFlag recursive),
              .__freertos_check_if_in_isr, .__freertos_mutex_take m],
            result := none, final := s2 }
        | some (_, s3) =>
          { trace := [.__get_freertos_mutex_for_ptr h (lookupFlag recursive),
              .__freertos_check_if_in_isr, .__freertos_mutex_take m],
            result := some ⟨h, true, o, 0, recursive⟩, final := s3 } := by
  cases recursive
  · simp only [lookupFlag_false] at hm ⊢
    simp only [ctor, Bool.false_eq_true, if_false, ctor_mutex_t_rtos]
    rw [run_op_some H _ _ s m s1 hm, run_op_some H _ _ s1 in_isr s2 hisr]
    cases in_isr
    · cases h3 : H (.__freertos_mutex_take m) s2 with
      | none => simp [Prog.run, h3]
      | some x => simp [Prog.run, h3]
    · cases h3 : H (.__freertos_mutex_take_from_isr m 0) s2 with
      | none => simp [Prog.run, h3]
      | some x => simp [Prog.run, h3]
  · simp only [lookupFlag_true] at hm ⊢
    simp only [ctor, if_true, ctor_recursive_mutex_t_rtos]
    rw [run_op_some H _ _ s m s1 hm, run_op_some H _ _ s1 in_isr s2 hisr]
    cases in_isr
    · cases h3 : H (.__freertos_mutex_take m) s2 with
      | none => simp [Prog.run, h3]
      | some x => simp [Prog.run, h3]
    · cases h3 : H (.__freertos_mutex_take_from_isr m 0) s2 with
      | none => simp [Prog.run, h3]
      | some x => simp [Prog.run, h3]

/-- Construction under the kernel when the lookup never returns. -/
theorem run_ctor_rtos_stuck_lookup {σ : Type} (H : Handler σ) (s : σ) (recursive : Bool)
    (D h o : Nat)
    (hm : H (.__get_freertos_mutex_for_ptr h (lookupFlag recursive)) s = none) :
    (ctor recursive true D h o).run H s =
      { trace := [.__get_freertos_mutex_for_ptr h (lookupFlag recursive)], result := none,
        final := s } := by
  cases recursive
  · simp only [lookupFlag_false] at hm ⊢
    simp only [ctor, Bool.false_eq_true, if_false, ctor_mutex_t_rtos]
    rw [run_op_none H _ _ s hm]
  · simp only [lookupFlag_true] at hm ⊢
    simp only [ctor, if_true, ctor_recursive_mutex_t_rtos]
    rw [run_op_none H _ _ s hm]

/-- Construction under the kernel when the detector never returns. -/
theorem run_ctor_rtos_stuck_check {σ : Type} (H : Handler σ) (s : σ) (recursive : Bool)
    (D h o : Nat) (m : KMutex) (s1 : σ)
    (hm : H (.__get_freertos_mutex_for_ptr h (lookupFlag recursive)) s = some (m, s1))
    (hi : H .__freertos_check_if_in_isr s1 = none) :
    (ctor recursive true D h o).run H s =
      { trace := [.__get_freertos_mutex_for_ptr h (lookupFlag recursive),
          .__freertos_check_if_in_isr], result := none, final := s1 } := by
  cases recursive
  · simp only [lookupFlag_false] at hm ⊢
    simp only [ctor, Bool.false_eq_true, if_false, ctor_mutex_t_rtos]
    rw [run_op_some H (.__get_freertos_mutex_for_ptr h false) _ s m s1 hm,
      run_op_none H _ _ s1 hi]
  · simp only [lookupFlag_true] at hm ⊢
    simp only [ctor, if_true, ctor_recursive_mutex_t_rtos]
    rw [run_op_some H (.__get_freertos_mutex_for_ptr h true) _ s m s1 hm,
      run_op_none H _ _ s1 hi]

/-- Bare-metal construction when the try-acquire never returns. -/
theorem run_ctor_bare_stuck {σ : Type} (H : Handler σ) (s : σ) (recursive : Bool) (D h o : Nat)
    (ht : tryResult H recursive h s = none) :
    (ctor recursive false D h o).run H s =
      { trace := [tryEnter recursive h], result := none, final := s } := by
  cases recursive
  · simp only [tryResult, Bool.false_eq_true, if_false] at ht
    simp only [ctor, Bool.false_eq_true, if_false, ctor_mutex_t_bare, tryEnter_false]
    exact run_op_none H _ _ s ht
  · simp only [tryResult, if_true] at ht
    simp only [ctor, if_true, ctor_recursive_mutex_t_bare, tryEnter_true]
    exact run_op_none H _ _ s ht

/-- Bare-metal construction when the try-acquire succeeds. -/
theorem run_ctor_bare_entered {σ : Type} (H : Handler σ) (s : σ) (recursive : Bool)
    (D h o : Nat) (x : Nat) (s1 : σ)
    (ht : tryResult H recursive h s = some ((true, x), s1)) :
    (ctor recursive false D h o).run H s =
      { trace := [tryEnter recursive h], result := some ⟨h, true, o, 0, recursive⟩,
        final := s1 } := by
  cases recursive
  · simp only [tryResult, Bool.false_eq_true, if_false] at ht
    simp only [ctor, Bool.false_eq_true, if_false, ctor_mutex_t_bare, tryEnter_false]
    rw [run_op_some H _ _ s _ s1 ht]
    simp
  · simp only [tryResult, if_true] at ht
    simp only [ctor, if_true, ctor_recursive_mutex_t_bare, tryEnter_true]
    rw [run_op_some H _ _ s _ s1 ht]
    simp

/-- Bare-metal construction after a failed try-acquire: what is left is the
program of stage `tried`. -/
theorem run_ctor_bare_failed {σ : Type} (H : Handler σ) (s : σ) (recursive : Bool)
    (D h o : Nat) (owner : Nat) (s1 : σ)
    (ht : tryResult H recursive h s = some ((false, owner), s1)) :
    (ctor recursive false D h o).run H s =
      { trace := tryEnter recursive h ::
          ((stageProg recursive D h o (.tried owner)).run H s1).trace,
        result := ((stageProg recursive D h o (.tried owner)).run H s1).result,
        final := ((stageProg recursive D h o (.tried owner)).run H s1).final } := by
  cases recursive
  · simp only [tryResult, Bool.false_eq_true, if_false] at ht
    simp only [ctor, Bool.false_eq_true, if_false, ctor_mutex_t_bare, tryEnter_false]
    rw [run_op_some H _ _ s _ s1 ht]
    simp
  · simp only [tryResult, if_true] at ht
    simp only [ctor, if_true, ctor_recursive_mutex_t_bare, tryEnter_true]
    rw [run_op_some H _ _ s _ s1 ht]
    simp

/-- After a failed try-acquire, when the core query never returns. -/
theorem run_tried_stuck {σ : Type} (H : Handler σ) (s1 : σ) (recursive : Bool) (D h o : Nat)
    (owner : Nat) (hc : H .get_core_num s1 = none) :
    (stageProg recursive D h o (.tried owner)).run H s1 =
      { trace := [.get_core_num], result := none, final := s1 } := by
  simp only [stageProg]
  exact run_op_none H _ _ s1 hc

/-- After a failed try-acquire that reported the calling core: the self-deadlock
branch. -/
theorem run_tried_self {σ : Type} (H : Handler σ) (s1 : σ) (recursive : Bool) (D h o : Nat)
    (owner : Nat) (s2 : σ) (hc : H .get_core_num s1 = some (owner, s2)) :
    (stageProg recursive D h o (.tried owner)).run H s1 =
      if o &&& D != 0 then
        match H (.DEBUGCORE "CoreMutex - Deadlock detected!\n") s2 with
        | none =>
          { trace := [.get_core_num, .DEBUGCORE "CoreMutex - Deadlock detected!\n"],
            result := none, final := s2 }
        | some (_, s3) =>
          { trace := [.get_core_num, .DEBUGCORE "CoreMutex - Deadlock detected!\n"],
            result := some ⟨h, false, o, 0, recursive⟩, final := s3 }
      else
        { trace := [.get_core_num], result := some ⟨h, false, o, 0, recursive⟩, final := s2 } := by
  simp only [stageProg]
  rw [run_op_some H _ _ s1 _ s2 hc]
  by_cases hd : (o &&& D != 0) = true
  · cases h3 : H (.DEBUGCORE "CoreMutex - Deadlock detected!\n") s2 with
    | none => simp [hd, Prog.run, h3]
    | some x => simp [hd, Prog.run, h3]
  · simp [hd]

/-- After a failed try-acquire that reported another core: the blocking acquire. -/
theorem run_tried_other {σ : Type} (H : Handler σ) (s1 : σ) (recursive : Bool) (D h o : Nat)
    (owner core : Nat) (s2 : σ) (hc : H .get_core_num s1 = some (core, s2))
    (hne : owner ≠ core) :
    (stageProg recursive D h o (.tried owner)).run H s1 =
      match blockingResult H recursive h s2 with
      | none =>
        { trace := [.get_core_num, enterBlocking recursive h], result := none, final := s2 }
      | some (_, s3) =>
        { trace := [.get_core_num, enterBlocking recursive h],
          result := some ⟨h, true, o, 0, recursive⟩, final := s3 } := by
  simp only [stageProg]
  rw [run_op_some H _ _ s1 _ s2 hc]
  cases recursive
  · cases h3 : H (.mutex_enter_blocking h) s2 with
    | none => simp [hne, Prog.run, h3, blockingResult]
    | some x => simp [hne, Prog.run, h3, blockingResult]
  · cases h3 : H (.recursive_mutex_enter_blocking h) s2 with
    | none => simp [hne, Prog.run, h3, blockingResult]
    | some x => simp [hne, Prog.run, h3, blockingResult]

/-- In the lock model a failed try-acquire reports the current owner and changes
nothing. -/
theorem tryResult_failed (c : Ctx) (w : World) (recursive : Bool) (h X : Nat) (w1 : World)
    (ht : tryResult (handle c) recursive h w = some ((false, X), w1)) :
    w1 = w ∧ lockOwner w recursive h = some X := by
  cases recursive
  · simp only [tryResult, Bool.false_eq_true, if_false, handle] at ht
    cases hm : w.mutex h with
    | none =>
      rw [hm] at ht
      cases ht
    | some x =>
      rw [hm] at ht
      cases ht
      exact ⟨rfl, by simp [lockOwner, hm]⟩
  · simp only [tryResult, if_true, handle] at ht
    cases hm : (w.recursive_mutex h).owner with
    | none =>
      rw [hm] at ht
      cases ht
    | some x =>
      rw [hm] at ht
      by_cases hx : x = c.core
      · simp only [if_pos hx] at ht
        cases ht
      · simp only [if_neg hx] at ht
        cases ht
        exact ⟨rfl, by simp [lockOwner, hm]⟩

/-- In the lock model a successful try-acquire leaves the caller's core as owner. -/
theorem tryResult_entered (c : Ctx) (w : World) (recursive : Bool) (h x : Nat) (w1 : World)
    (ht : tryResult (handle c) recursive h w = some ((true, x), w1)) :
    lockOwner w1 recursive h = some c.core := by
  cases recursive
  · simp only [tryResult, Bool.false_eq_true, if_false, handle] at ht
    cases hm : w.mutex h with
    | none =>
      rw [hm] at ht
      cases ht
      simp [lockOwner]
    | some y =>
      rw [hm] at ht
      cases ht
  · simp only [tryResult, if_true, handle] at ht
    cases hm : (w.recursive_mutex h).owner with
    | none =>
      rw [hm] at ht
      cases ht
      simp [lockOwner, World.enterRecursive, RecursiveMutex.entered]
    | some y =>
      rw [hm] at ht
      by_cases hy : y = c.core
      · simp only [if_pos hy] at ht
        cases ht
        simp [lockOwner, World.enterRecursive, RecursiveMutex.entered]
      · simp only [if_neg hy] at ht
        cases ht

/-! ## C5: no spurious release -/

/-- C5. Destroying a guard whose `_acquired` is false, in either environment, for
either lock kind and whatever the primitives would answer, invokes no
primitive at all (the trace is empty: no exit, no give, no kernel-mutex
lookup), returns, and leaves the state as it was; in the lock model the owner
of every plain lock, the owner and nesting count of every recursive lock and
the held flag of every kernel mutex are the same before and after, in every
call context. -/
theorem no_spurious_release (__isFreeRTOS : Bool) (g : Guard) (hg : g._acquired = false) :
    (∀ (σ : Type) (H : Handler σ) (s : σ),
      ((dtor __isFreeRTOS g).run H s).trace = [] ∧
      ((dtor __isFreeRTOS g).run H s).result = some () ∧
      ((dtor __isFreeRTOS g).run H s).final = s) ∧
    (∀ (c : Ctx) (w : World),
      ((dtor __isFreeRTOS g).run (handle c) w).final.mutex = w.mutex ∧
      ((dtor __isFreeRTOS g).run (handle c) w).final.recursive_mutex = w.recursive_mutex ∧
      ((dtor __isFreeRTOS g).run (handle c) w).final.kernel_held = w.kernel_held) := by
  rw [dtor_not_acquired __isFreeRTOS g hg]
  constructor
  · intro σ H s
    simp
  · intro c w
    simp

/-- Witness of C5: a failed plain-lock guard, destroyed under the kernel. -/
theorem no_spurious_release_witness :
    (⟨5, false, 0, 0, false⟩ : Guard)._acquired = false ∧
    ((dtor true ⟨5, false, 0, 0, false⟩).run (handle c0) w0).trace = [] :=
  ⟨rfl, ((no_spurious_release true ⟨5, false, 0, 0, false⟩ rfl).1 World (handle c0) w0).1⟩

/-! ## C3: the failure taxonomy -/

/-- When construction returns, `_acquired` is false in exactly two cases,
whatever the primitives answer. -/
theorem acquired_false_iff {σ : Type} (H : Handler σ) (s : σ) (recursive __isFreeRTOS : Bool)
    (D h o : Nat) (g : Guard)
    (hret : ((ctor recursive __isFreeRTOS D h o).run H s).result = some g) :
    (g._acquired = false ↔
      (__isFreeRTOS = false ∧ ∃ owner s1 s2,
        tryResult H recursive h s = some ((false, owner), s1) ∧
        H .get_core_num s1 = some (owner, s2)) ∨
      (__isFreeRTOS = true ∧ ∃ m s1 s2 t s3,
        H (.__get_freertos_mutex_for_ptr h (lookupFlag recursive)) s = some (m, s1) ∧
        H .__freertos_check_if_in_isr s1 = some (true, s2) ∧
        H (.__freertos_mutex_take_from_isr m 0) s2 = some ((false, t), s3))) := by
  cases __isFreeRTOS
  · -- bare-metal
    cases ht : tryResult H recursive h s with
    | none =>
      rw [run_ctor_bare_stuck H s recursive D h o ht] at hret
      simp at hret
    | some x =>
      obtain ⟨⟨ok, owner⟩, s1⟩ := x
      cases ok
      · rw [run_ctor_bare_failed H s recursive D h o owner s1 ht] at hret
        simp only at hret
        cases hc : H .get_core_num s1 with
        | none =>
          rw [run_tried_stuck H s1 recursive D h o owner hc] at hret
          simp at hret
        | some y =>
          obtain ⟨core, s2⟩ := y
          by_cases he : owner = core
          · subst he
            rw [run_tried_self H s1 recursive D h o owner s2 hc] at hret
            have hg : g._acquired = false := by
              by_cases hd : (o &&& D != 0) = true
              · rw [if_pos hd] at hret
                cases h3 : H (.DEBUGCORE "CoreMutex - Deadlock detected!\n") s2 with
                | none => rw [h3] at hret; simp at hret
                | some z =>
                  rw [h3] at hret
                  simp only [Option.some.injEq] at hret
                  rw [← hret]
              · rw [if_neg hd] at hret
                simp only [Option.some.injEq] at hret
                rw [← hret]
            simp only [hg, true_iff]
            exact Or.inl ⟨trivial, owner, s1, s2, rfl, hc⟩
          · rw [run_tried_other H s1 recursive D h o owner core s2 hc he] at hret
            have hg : g._acquired = true := by
              cases h3 : blockingResult H recursive h s2 with
              | none => rw [h3] at hret; simp at hret
              | some z =>
                rw [h3] at hret
                simp only [Option.some.injEq] at hret
                rw [← hret]
            simp only [hg, Bool.true_eq_false, false_iff, not_or, not_and, not_exists]
            refine ⟨?_, fun hf => by simp at hf⟩
            intro _ owner1 t1 t2 h1 h2
            cases h1
            rw [hc] at h2
            cases h2
            exact he rfl
      · rw [run_ctor_bare_entered H s recursive D h o owner s1 ht] at hret
        simp only [Option.some.injEq] at hret
        have hg : g._acquired = true := by rw [← hret]
        simp [hg]
  · -- kernel
    cases hm : H (.__get_freertos_mutex_for_ptr h (lookupFlag recursive)) s with
    | none =>
      have : ((ctor recursive true D h o).run H s).result = none := by
        cases recursive
        · simp only [lookupFlag_false] at hm
          simp only [ctor, Bool.false_eq_true, if_false, ctor_mutex_t_rtos]
          rw [run_op_none H _ _ s hm]
        · simp only [lookupFlag_true] at hm
          simp only [ctor, if_true, ctor_recursive_mutex_t_rtos]
          rw [run_op_none H _ _ s hm]
      rw [this] at hret
      simp at hret
    | some x =>
      obtain ⟨m, s1⟩ := x
      cases hi : H .__freertos_check_if_in_isr s1 with
      | none =>
        have : ((ctor recursive true D h o).run H s).result = none := by
          cases recursive
          · simp only [lookupFlag_false] at hm
            simp only [ctor, Bool.false_eq_true, if_false, ctor_mutex_t_rtos]
            rw [run_op_some H (.__get_freertos_mutex_for_ptr h false) _ s m s1 hm,
              run_op_none H _ _ s1 hi]
          · simp only [lookupFlag_true] at hm
            simp only [ctor, if_true, ctor_recursive_mutex_t_rtos]
            rw [run_op_some H (.__get_freertos_mutex_for_ptr h true) _ s m s1 hm,
              run_op_none H _ _ s1 hi]
        rw [this] at hret
        simp at hret
      | some y =>
        obtain ⟨in_isr, s2⟩ := y
        rw [run_ctor_rtos H s recursive D h o m s1 in_isr s2 hm hi] at hret
        cases in_isr
        · simp only [Bool.false_eq_true, if_false] at hret
          have hg : g._acquired = true := by
            cases h3 : H (.__freertos_mutex_take m) s2 with
            | none => rw [h3] at hret; simp at hret
            | some z =>
              rw [h3] at hret
              simp only [Option.some.injEq] at hret
              rw [← hret]
          simp only [hg, Bool.true_eq_false, false_iff, not_or, not_and, not_exists]
          refine ⟨fun hf => by simp at hf, ?_⟩
          intro _ m1 t1 t2 t t3 h1 h2
          cases h1
          rw [hi] at h2
          cases h2
        · simp only [if_true] at hret
          cases h3 : H (.__freertos_mutex_take_from_isr m 0) s2 with
          | none => rw [h3] at hret; simp at hret
          | some z =>
            obtain ⟨⟨ok, t⟩, s3⟩ := z
            rw [h3] at hret
            simp only [Option.some.injEq] at hret
            have hg : g._acquired = ok := by rw [← hret]
            cases ok
            · simp only [hg, true_iff]
              exact Or.inr ⟨trivial, m, s1, s2, t, s3, rfl, hi, h3⟩
            · simp only [hg, Bool.true_eq_false, false_iff, not_or, not_and, not_exists]
              refine ⟨fun hf => by simp at hf, ?_⟩
              intro _ m1 t1 t2 t0 t3 h1 h2 h4
              cases h1
              rw [hi] at h2
              cases h2
              rw [h3] at h4
              cases h4

/-- In the lock model a construction that does not return is waiting in a blocking
acquisition. -/
theorem stuck_only_blocking (c : Ctx) (w : World) (recursive __isFreeRTOS : Bool) (D h o : Nat)
    (hnone : ((ctor recursive __isFreeRTOS D h o).run (handle c) w).result = none) :
    ∃ p, ((ctor recursive __isFreeRTOS D h o).run (handle c) w).trace.getLast? = some p ∧
      p.isBlocking = true := by
  cases __isFreeRTOS
  · cases ht : tryResult (handle c) recursive h w with
    | none =>
      cases recursive
      · simp only [tryResult, Bool.false_eq_true, if_false, handle] at ht
        cases hm : w.mutex h <;> simp [hm] at ht
      · simp only [tryResult, if_true, handle] at ht
        cases hm : (w.recursive_mutex h).owner with
        | none => simp [hm] at ht
        | some x =>
          simp only [hm] at ht
          by_cases hx : x = c.core <;> simp [hx] at ht
    | some x =>
      obtain ⟨⟨ok, owner⟩, s1⟩ := x
      cases ok
      · rw [run_ctor_bare_failed (handle c) w recursive D h o owner s1 ht] at hnone ⊢
        have hc : handle c .get_core_num s1 = some (c.core, s1) := rfl
        by_cases he : owner = c.core
        · subst he
          rw [run_tried_self (handle c) s1 recursive D h o c.core s1 hc] at hnone
          have hdb : handle c (.DEBUGCORE "CoreMutex - Deadlock detected!\n") s1 =
              some ((), s1) := rfl
          by_cases hd : (o &&& D != 0) = true
          · simp [hd, hdb] at hnone
          · simp [hd] at hnone
        · rw [run_tried_other (handle c) s1 recursive D h o owner c.core s1 hc he] at hnone ⊢
          cases h3 : blockingResult (handle c) recursive h s1 with
          | none =>
            refine ⟨enterBlocking recursive h, by simp, ?_⟩
            cases recursive <;> rfl
          | some z => simp [h3] at hnone
      · rw [run_ctor_bare_entered (handle c) w recursive D h o owner s1 ht] at hnone
        simp at hnone
  · have hm : handle c (.__get_freertos_mutex_for_ptr h (lookupFlag recursive)) w =
        some (w.kernel_mutex h (lookupFlag recursive), w) := rfl
    have hi : handle c .__freertos_check_if_in_isr w = some (c.in_isr, w) := rfl
    rw [run_ctor_rtos (handle c) w recursive D h o _ w c.in_isr w hm hi] at hnone ⊢
    cases hisr : c.in_isr
    · simp only [hisr, Bool.false_eq_true, if_false] at hnone ⊢
      cases h3 : handle c (.__freertos_mutex_take (w.kernel_mutex h (lookupFlag recursive))) w with
      | none =>
        exact ⟨.__freertos_mutex_take (w.kernel_mutex h (lookupFlag recursive)), by simp, rfl⟩
      | some z => simp [h3] at hnone
    · simp only [hisr, if_true] at hnone
      cases hk : w.kernel_held (w.kernel_mutex h (lookupFlag recursive)) <;>
        simp [handle, hk] at hnone

/-- C3. For either environment, either lock kind and every option byte.  Whatever
the primitives answer (so in every call context and lock state), when
construction returns a guard its `_acquired` is false exactly when either the
environment is bare-metal, the try-acquire failed and the owner it reported is
the core the core query returns, or the environment is the kernel, the
detector reported interrupt context and the interrupt-safe take failed; in
every other returning case it is true.  A run has no other outcome than a
returned guard or a call that has not returned, and in the lock model such a
call is a blocking acquisition. -/
theorem failure_taxonomy (recursive __isFreeRTOS : Bool) (D h o : Nat) :
    (∀ (σ : Type) (H : Handler σ) (s : σ) (g : Guard),
      ((ctor recursive __isFreeRTOS D h o).run H s).result = some g →
      ((g._acquired = false ↔
        (__isFreeRTOS = false ∧ ∃ owner s1 s2,
          tryResult H recursive h s = some ((false, owner), s1) ∧
          H .get_core_num s1 = some (owner, s2)) ∨
        (__isFreeRTOS = true ∧ ∃ m s1 s2 t s3,
          H (.__get_freertos_mutex_for_ptr h (lookupFlag recursive)) s = some (m, s1) ∧
          H .__freertos_check_if_in_isr s1 = some (true, s2) ∧
          H (.__freertos_mutex_take_from_isr m 0) s2 = some ((false, t), s3))) ∧
       (g._acquired = false ∨ g._acquired = true))) ∧
    (∀ (c : Ctx) (w : World),
      ((ctor recursive __isFreeRTOS D h o).run (handle c) w).result = none →
      ∃ p, ((ctor recursive __isFreeRTOS D h o).run (handle c) w).trace.getLast? = some p ∧
        p.isBlocking = true) := by
  constructor
  · intro σ H s g hret
    refine ⟨acquired_false_iff H s recursive __isFreeRTOS D h o g hret, ?_⟩
    cases g._acquired <;> simp
  · intro c w hnone
    exact stuck_only_blocking c w recursive __isFreeRTOS D h o hnone

/-- Witness of C3: the plain lock held by the calling core, bare-metal. -/
theorem failure_taxonomy_witness :
    ((ctor false false 1 5 0).run (handle c0) wHeld0).result = some ⟨5, false, 0, 0, false⟩ ∧
    ((⟨5, false, 0, 0, false⟩ : Guard)._acquired = false ↔
      (false = false ∧ ∃ owner s1 s2,
        tryResult (handle c0) false 5 wHeld0 = some ((false, owner), s1) ∧
        handle c0 .get_core_num s1 = some (owner, s2)) ∨
      (false = true ∧ ∃ m s1 s2 t s3,
        handle c0 (.__get_freertos_mutex_for_ptr 5 (lookupFlag false)) wHeld0 = some (m, s1) ∧
        handle c0 .__freertos_check_if_in_isr s1 = some (true, s2) ∧
        handle c0 (.__freertos_mutex_take_from_isr m 0) s2 = some ((false, t), s3))) :=
  ⟨rfl, ((failure_taxonomy false false 1 5 0).1 World (handle c0) wHeld0
    ⟨5, false, 0, 0, false⟩ rfl).1⟩

/-! ## C4: interrupt context under the kernel -/

/-- C4. Under the kernel, with the detector reporting interrupt context, for either
lock kind: construction makes exactly the lookup, the detector query and the
interrupt-safe take, so never the blocking take, and returns.  Over a held
kernel mutex it returns `_acquired = false` and changes nothing; over a free
one it returns `_acquired = true`, the mutex is then held, and
`_pxHigherPriorityTaskWoken` is the value the interrupt-safe take wrote. -/
theorem isr_nonblocking (c : Ctx) (hisr : c.in_isr = true) (w : World) (recursive : Bool)
    (D h o : Nat) :
    ((ctor recursive true D h o).run (handle c) w).trace =
      [.__get_freertos_mutex_for_ptr h (lookupFlag recursive), .__freertos_check_if_in_isr,
        .__freertos_mutex_take_from_isr (w.kernel_mutex h (lookupFlag recursive)) 0] ∧
    (∀ m, Prim.__freertos_mutex_take m ∉ ((ctor recursive true D h o).run (handle c) w).trace) ∧
    (w.kernel_held (w.kernel_mutex h (lookupFlag recursive)) = true →
      ((ctor recursive true D h o).run (handle c) w).result =
        some ⟨h, false, o, 0, recursive⟩ ∧
      ((ctor recursive true D h o).run (handle c) w).final = w) ∧
    (w.kernel_held (w.kernel_mutex h (lookupFlag recursive)) = false →
      ∃ t w1,
        handle c (.__freertos_mutex_take_from_isr (w.kernel_mutex h (lookupFlag recursive)) 0) w =
          some ((true, t), w1) ∧
        ((ctor recursive true D h o).run (handle c) w).result =
          some ⟨h, true, o, t, recursive⟩ ∧
        ((ctor recursive true D h o).run (handle c) w).final = w1 ∧
        w1.kernel_held (w.kernel_mutex h (lookupFlag recursive)) = true) := by
  have hm : handle c (.__get_freertos_mutex_for_ptr h (lookupFlag recursive)) w =
      some (w.kernel_mutex h (lookupFlag recursive), w) := rfl
  have hi : handle c .__freertos_check_if_in_isr w = some (true, w) := by
    simp [handle, hisr]
  rw [run_ctor_rtos (handle c) w recursive D h o _ w true w hm hi]
  simp only [if_true]
  cases hk : w.kernel_held (w.kernel_mutex h (lookupFlag recursive))
  · simp only [handle, hk, Bool.false_eq_true, if_false]
    refine ⟨trivial, by simp, by simp, fun _ => ⟨_, _, rfl, rfl, rfl, by simp⟩⟩
  · simp [handle, hk]

/-- Witness of C4: a held kernel mutex met from interrupt context. -/
theorem isr_nonblocking_witness :
    c0isr.in_isr = true ∧
    wKernelHeld.kernel_held (wKernelHeld.kernel_mutex 5 (lookupFlag false)) = true ∧
    ((ctor false true 1 5 0).run (handle c0isr) wKernelHeld).result =
      some ⟨5, false, 0, 0, false⟩ :=
  ⟨rfl, rfl, ((isr_nonblocking c0isr rfl wKernelHeld false 1 5 0).2.2.1 rfl).1⟩

/-! ## C8: blocking and interrupt context -/

/-- Counterexample to C8: bare-metal, the detector reports interrupt context, the
plain lock is held by the other core; the constructor calls
`mutex_enter_blocking`, which does not return. -/
theorem bare_metal_isr_blocks :
    c0isr.in_isr = true ∧
    ((ctor false false 1 5 0).run (handle c0isr) wHeld1).trace =
      [.mutex_try_enter 5, .get_core_num, .mutex_enter_blocking 5] ∧
    (Prim.mutex_enter_blocking 5).isBlocking = true ∧
    ((ctor false false 1 5 0).run (handle c0isr) wHeld1).result = none := by
  refine ⟨rfl, ?_, rfl, ?_⟩
  · rfl
  · rfl

/-- C8 amended. Under the kernel, for either lock kind, every option byte and every
behaviour of the primitives: when the detector reports interrupt context, no
call the constructor makes is a blocking acquisition, also when the
interrupt-safe take fails.  Bare-metal, the constructor never consults the
detector. -/
theorem kernel_isr_never_blocks {σ : Type} (H : Handler σ) (s : σ) (recursive : Bool)
    (D h o : Nat) :
    (∀ m s1 s2,
      H (.__get_freertos_mutex_for_ptr h (lookupFlag recursive)) s = some (m, s1) →
      H .__freertos_check_if_in_isr s1 = some (true, s2) →
      ∀ p ∈ ((ctor recursive true D h o).run H s).trace, p.isBlocking = false) ∧
    Prim.__freertos_check_if_in_isr ∉ ((ctor recursive false D h o).run H s).trace := by
  constructor
  · intro m s1 s2 hm hi
    rw [run_ctor_rtos H s recursive D h o m s1 true s2 hm hi]
    simp only [if_true]
    cases h3 : H (.__freertos_mutex_take_from_isr m 0) s2 with
    | none => simp [Prim.isBlocking]
    | some x => simp [Prim.isBlocking]
  · cases ht : tryResult H recursive h s with
    | none =>
      rw [run_ctor_bare_stuck H s recursive D h o ht]
      cases recursive <;> simp
    | some x =>
      obtain ⟨⟨ok, owner⟩, s1⟩ := x
      cases ok
      · rw [run_ctor_bare_failed H s recursive D h o owner s1 ht]
        cases hc : H .get_core_num s1 with
        | none =>
          rw [run_tried_stuck H s1 recursive D h o owner hc]
          cases recursive <;> simp
        | some y =>
          obtain ⟨core, s2⟩ := y
          by_cases he : owner = core
          · subst he
            rw [run_tried_self H s1 recursive D h o owner s2 hc]
            by_cases hd : (o &&& D != 0) = true
            · rw [if_pos hd]
              cases h3 : H (.DEBUGCORE "CoreMutex - Deadlock detected!\n") s2 with
              | none => cases recursive <;> simp
              | some z => cases recursive <;> simp
            · rw [if_neg hd]
              cases recursive <;> simp
          · rw [run_tried_other H s1 recursive D h o owner core s2 hc he]
            cases h3 : blockingResult H recursive h s2 with
            | none => cases recursive <;> simp
            | some z => cases recursive <;> simp
      · rw [run_ctor_bare_entered H s recursive D h o owner s1 ht]
        cases recursive <;> simp

/-- Witness of C8 amended: a held kernel mutex, interrupt context. -/
theorem kernel_isr_never_blocks_witness :
    handle c0isr (.__get_freertos_mutex_for_ptr 5 (lookupFlag false)) wKernelHeld =
      some (10, wKernelHeld) ∧
    handle c0isr .__freertos_check_if_in_isr wKernelHeld = some (true, wKernelHeld) ∧
    ∀ p ∈ ((ctor false true 1 5 0).run (handle c0isr) wKernelHeld).trace,
      p.isBlocking = false :=
  ⟨rfl, rfl,
    (kernel_isr_never_blocks (handle c0isr) wKernelHeld false 1 5 0).1 10 wKernelHeld
      wKernelHeld rfl rfl⟩

/-! ## C7: the release matches the acquisition -/

/-- Bare-metal destruction of a guard that acquired, against any handler. -/
theorem run_dtor_bare_trace {σ : Type} (H : Handler σ) (s : σ) (g : Guard)
    (hg : g._acquired = true) :
    ((dtor false g).run H s).trace = [exitLock g._recursive g._mutex] := by
  rw [dtor_bare g hg]
  cases h1 : H (exitLock g._recursive g._mutex) s with
  | none => rw [run_op_none H _ _ s h1]
  | some x =>
    obtain ⟨r, s1⟩ := x
    rw [run_op_some H _ _ s r s1 h1]
    simp

/-- Kernel destruction of a guard that acquired, against any handler in which the
lookup returns `m` and the detector reports `in_isr`. -/
theorem run_dtor_rtos_trace {σ : Type} (H : Handler σ) (s : σ) (g : Guard)
    (hg : g._acquired = true) (m : KMutex) (s1 : σ) (in_isr : Bool) (s2 : σ)
    (hm : H (.__get_freertos_mutex_for_ptr g._mutex g._recursive) s = some (m, s1))
    (hisr : H .__freertos_check_if_in_isr s1 = some (in_isr, s2)) :
    ((dtor true g).run H s).trace =
      [.__get_freertos_mutex_for_ptr g._mutex g._recursive, .__freertos_check_if_in_isr,
        if in_isr then .__freertos_mutex_give_from_isr m g._pxHigherPriorityTaskWoken
        else .__freertos_mutex_give m] := by
  rw [dtor_rtos g hg, run_op_some H _ _ s m s1 hm, run_op_some H _ _ s1 in_isr s2 hisr]
  cases in_isr
  · cases h3 : H (.__freertos_mutex_give m) s2 with
    | none => simp [Prog.run, h3]
    | some x => simp [Prog.run, h3]
  · cases h3 : H (.__freertos_mutex_give_from_isr m g._pxHigherPriorityTaskWoken) s2 with
    | none => simp [Prog.run, h3]
    | some x => simp [Prog.run, h3]

/-- What a returned guard records of its construction. -/
theorem ctor_result_fields {σ : Type} (H : Handler σ) (s : σ) (recursive __isFreeRTOS : Bool)
    (D h o : Nat) (g : Guard)
    (hret : ((ctor recursive __isFreeRTOS D h o).run H s).result = some g) :
    g._mutex = h ∧ g._recursive = recursive ∧ g._option = o := by
  cases __isFreeRTOS
  · cases ht : tryResult H recursive h s with
    | none =>
      rw [run_ctor_bare_stuck H s recursive D h o ht] at hret
      simp at hret
    | some x =>
      obtain ⟨⟨ok, owner⟩, s1⟩ := x
      cases ok
      · rw [run_ctor_bare_failed H s recursive D h o owner s1 ht] at hret
        simp only at hret
        cases hc : H .get_core_num s1 with
        | none =>
          rw [run_tried_stuck H s1 recursive D h o owner hc] at hret
          simp at hret
        | some y =>
          obtain ⟨core, s2⟩ := y
          by_cases he : owner = core
          · subst he
            rw [run_tried_self H s1 recursive D h o owner s2 hc] at hret
            by_cases hd : (o &&& D != 0) = true
            · rw [if_pos hd] at hret
              cases h3 : H (.DEBUGCORE "CoreMutex - Deadlock detected!\n") s2 with
              | none => rw [h3] at hret; simp at hret
              | some z =>
                rw [h3] at hret
                simp only [Option.some.injEq] at hret
                subst hret
                exact ⟨rfl, rfl, rfl⟩
            · rw [if_neg hd] at hret
              simp only [Option.some.injEq] at hret
              subst hret
              exact ⟨rfl, rfl, rfl⟩
          · rw [run_tried_other H s1 recursive D h o owner core s2 hc he] at hret
            cases h3 : blockingResult H recursive h s2 with
            | none => rw [h3] at hret; simp at hret
            | some z =>
              rw [h3] at hret
              simp only [Option.some.injEq] at hret
              subst hret
              exact ⟨rfl, rfl, rfl⟩
      · rw [run_ctor_bare_entered H s recursive D h o owner s1 ht] at hret
        simp only [Option.some.injEq] at hret
        subst hret
        exact ⟨rfl, rfl, rfl⟩
  · cases hm : H (.__get_freertos_mutex_for_ptr h (lookupFlag recursive)) s with
    | none =>
      rw [run_ctor_rtos_stuck_lookup H s recursive D h o hm] at hret
      simp at hret
    | some x =>
      obtain ⟨m, s1⟩ := x
      cases hi : H .__freertos_check_if_in_isr s1 with
      | none =>
        rw [run_ctor_rtos_stuck_check H s recursive D h o m s1 hm hi] at hret
        simp at hret
      | some y =>
        obtain ⟨in_isr, s2⟩ := y
        rw [run_ctor_rtos H s recursive D h o m s1 in_isr s2 hm hi] at hret
        cases in_isr
        · simp only [Bool.false_eq_true, if_false] at hret
          cases h3 : H (.__freertos_mutex_take m) s2 with
          | none => rw [h3] at hret; simp at hret
          | some z =>
            rw [h3] at hret
            simp only [Option.some.injEq] at hret
            subst hret
            exact ⟨rfl, rfl, rfl⟩
        · simp only [if_true] at hret
          cases h3 : H (.__freertos_mutex_take_from_isr m 0) s2 with
          | none => rw [h3] at hret; simp at hret
          | some z =>
            rw [h3] at hret
            simp only [Option.some.injEq] at hret
            subst hret
            exact ⟨rfl, rfl, rfl⟩

theorem lookupFlag_eq (recursive : Bool) : lookupFlag recursive = recursive := by
  cases recursive <;> rfl

/-- Against any handler: a guard returned with `_acquired = true` is destroyed
with exactly one release call; bare-metal it is the exit of the lock kind of
its constructor; under the kernel, wherever the lookup and the detector return
at destruction, the trace is the lookup with the handle and reentrancy flag of
the constructor, the detector query and the give that the detector selects,
next to the corresponding trace of the constructor. -/
theorem release_general {σ : Type} (H : Handler σ) (s s3 : σ) (recursive __isFreeRTOS : Bool)
    (D h o : Nat) (g : Guard)
    (hret : ((ctor recursive __isFreeRTOS D h o).run H s).result = some g)
    (hacq : g._acquired = true) :
    (__isFreeRTOS = false →
      ((dtor __isFreeRTOS g).run H s3).trace = [exitLock recursive h] ∧
      (((dtor __isFreeRTOS g).run H s3).trace.filter Prim.isRelease).length = 1) ∧
    (__isFreeRTOS = true → ∀ m2 s4 isr2 s5,
      H (.__get_freertos_mutex_for_ptr h (lookupFlag recursive)) s3 = some (m2, s4) →
      H .__freertos_check_if_in_isr s4 = some (isr2, s5) →
      ((dtor __isFreeRTOS g).run H s3).trace =
        [.__get_freertos_mutex_for_ptr h (lookupFlag recursive), .__freertos_check_if_in_isr,
          if isr2 then .__freertos_mutex_give_from_isr m2 g._pxHigherPriorityTaskWoken
          else .__freertos_mutex_give m2] ∧
      (((dtor __isFreeRTOS g).run H s3).trace.filter Prim.isRelease).length = 1 ∧
      ∃ m1 s1 isr s2,
        H (.__get_freertos_mutex_for_ptr h (lookupFlag recursive)) s = some (m1, s1) ∧
        H .__freertos_check_if_in_isr s1 = some (isr, s2) ∧
        ((ctor recursive __isFreeRTOS D h o).run H s).trace =
          [.__get_freertos_mutex_for_ptr h (lookupFlag recursive), .__freertos_check_if_in_isr,
            if isr then .__freertos_mutex_take_from_isr m1 0 else .__freertos_mutex_take m1] ∧
        (isr = true → ∃ s6, H (.__freertos_mutex_take_from_isr m1 0) s2 =
          some ((true, g._pxHigherPriorityTaskWoken), s6)) ∧
        (isr2 = isr →
          (Prim.__freertos_mutex_give_from_isr m2 g._pxHigherPriorityTaskWoken ∈
              ((dtor __isFreeRTOS g).run H s3).trace ↔
            Prim.__freertos_mutex_take_from_isr m1 0 ∈
              ((ctor recursive __isFreeRTOS D h o).run H s).trace) ∧
          (Prim.__freertos_mutex_give m2 ∈ ((dtor __isFreeRTOS g).run H s3).trace ↔
            Prim.__freertos_mutex_take m1 ∈
              ((ctor recursive __isFreeRTOS D h o).run H s).trace))) := by
  obtain ⟨hmx, hrec, _⟩ := ctor_result_fields H s recursive __isFreeRTOS D h o g hret
  cases __isFreeRTOS
  · refine ⟨fun _ => ?_, fun hf => by simp at hf⟩
    have ht := run_dtor_bare_trace H s3 g hacq
    rw [hmx, hrec] at ht
    rw [ht]
    refine ⟨rfl, ?_⟩
    cases recursive <;> simp [Prim.isRelease]
  · refine ⟨fun hf => by simp at hf, fun _ m2 s4 isr2 s5 hm2 hi2 => ?_⟩
    have hm2a : H (.__get_freertos_mutex_for_ptr g._mutex g._recursive) s3 = some (m2, s4) := by
      rw [hmx, hrec, ← lookupFlag_eq recursive]
      exact hm2
    have ht := run_dtor_rtos_trace H s3 g hacq m2 s4 isr2 s5 hm2a hi2
    rw [hmx, hrec, ← lookupFlag_eq recursive] at ht
    -- the construction
    cases hm : H (.__get_freertos_mutex_for_ptr h (lookupFlag recursive)) s with
    | none =>
      rw [run_ctor_rtos_stuck_lookup H s recursive D h o hm] at hret
      simp at hret
    | some x =>
      obtain ⟨m1, s1⟩ := x
      cases hi : H .__freertos_check_if_in_isr s1 with
      | none =>
        rw [run_ctor_rtos_stuck_check H s recursive D h o m1 s1 hm hi] at hret
        simp at hret
      | some y =>
        obtain ⟨isr, s2⟩ := y
        have hc := run_ctor_rtos H s recursive D h o m1 s1 isr s2 hm hi
        rw [hc] at hret
        rw [ht, hc]
        refine ⟨rfl, ?_, m1, s1, isr, s2, rfl, hi, ?_⟩
        · cases isr2 <;> simp [Prim.isRelease]
        · cases isr
          · simp only [Bool.false_eq_true, if_false] at hret ⊢
            cases h3 : H (.__freertos_mutex_take m1) s2 with
            | none => rw [h3] at hret; simp at hret
            | some z =>
              refine ⟨rfl, fun hf => by simp at hf, ?_⟩
              intro he
              subst he
              simp
          · simp only [if_true] at hret ⊢
            cases h3 : H (.__freertos_mutex_take_from_isr m1 0) s2 with
            | none => rw [h3] at hret; simp at hret
            | some z =>
              obtain ⟨⟨ok, t⟩, s6⟩ := z
              rw [h3] at hret
              simp only [Option.some.injEq] at hret
              subst hret
              simp only at hacq
              subst hacq
              refine ⟨rfl, fun _ => ⟨s6, rfl⟩, ?_⟩
              intro he
              subst he
              simp

/-- In the lock model, a blocking acquire issued right after a try-acquire that
failed with another core as owner does not return. -/
theorem blockingResult_held (c : Ctx) (w : World) (recursive : Bool) (h X : Nat)
    (hown : lockOwner w recursive h = some X) (hne : X ≠ c.core) :
    blockingResult (handle c) recursive h w = none := by
  cases recursive
  · simp only [lockOwner, Bool.false_eq_true, if_false] at hown
    simp [blockingResult, handle, hown]
  · simp only [lockOwner, if_true] at hown
    simp [blockingResult, handle, hown, hne]

/-- In the lock model, run by one caller without interference, a bare-metal
construction that returns `_acquired = true` consists of the successful
try-acquire. -/
theorem run_ctor_bare_acquired (c : Ctx) (w : World) (recursive : Bool) (D h o : Nat)
    (g : Guard) (hret : ((ctor recursive false D h o).run (handle c) w).result = some g)
    (hacq : g._acquired = true) :
    ((ctor recursive false D h o).run (handle c) w).trace = [tryEnter recursive h] := by
  cases ht : tryResult (handle c) recursive h w with
  | none => rw [run_ctor_bare_stuck (handle c) w recursive D h o ht]
  | some x =>
    obtain ⟨⟨ok, owner⟩, s1⟩ := x
    cases ok
    · exfalso
      obtain ⟨hw, hown⟩ := tryResult_failed c w recursive h owner s1 ht
      subst hw
      rw [run_ctor_bare_failed (handle c) s1 recursive D h o owner s1 ht] at hret
      have hc : handle c .get_core_num s1 = some (c.core, s1) := rfl
      by_cases he : owner = c.core
      · subst he
        rw [run_tried_self (handle c) s1 recursive D h o c.core s1 hc] at hret
        have hdb : handle c (.DEBUGCORE "CoreMutex - Deadlock detected!\n") s1 =
            some ((), s1) := rfl
        by_cases hd : (o &&& D != 0) = true
        · rw [if_pos hd, hdb] at hret
          simp only [Option.some.injEq] at hret
          rw [← hret] at hacq
          simp at hacq
        · rw [if_neg hd] at hret
          simp only [Option.some.injEq] at hret
          rw [← hret] at hacq
          simp at hacq
      · rw [run_tried_other (handle c) s1 recursive D h o owner c.core s1 hc he,
          blockingResult_held c s1 recursive h owner hown he] at hret
        simp at hret
    · rw [run_ctor_bare_entered (handle c) w recursive D h o owner s1 ht]

/-- C7. A guard that a constructor returned with `_acquired = true` is destroyed,
in the call context it was constructed in and whatever the lock state then
is, with exactly one release call, the one matching how it acquired.  Under
the kernel the constructor looked the native mutex up and took it with the
interrupt-safe take in interrupt context (the stored wake token is the one
that take wrote) and with the blocking take otherwise; the destructor looks
the native mutex up with the same handle and reentrancy flag and gives with
the interrupt-safe give and the stored wake token exactly when the guard was
taken by the interrupt-safe take, with the ordinary give exactly when it was
taken by the blocking take.  Bare-metal the destructor calls
`recursive_mutex_exit` exactly for a guard of the recursive constructor and
`mutex_exit` exactly for a guard of the plain one; this last part holds
whatever the primitives answer, so also for a guard that acquired through the
blocking acquire. -/
theorem symmetric_release (c : Ctx) (w w3 : World) (recursive __isFreeRTOS : Bool)
    (D h o : Nat) (g : Guard)
    (hret : ((ctor recursive __isFreeRTOS D h o).run (handle c) w).result = some g)
    (hacq : g._acquired = true) :
    (((dtor __isFreeRTOS g).run (handle c) w3).trace.filter Prim.isRelease).length = 1 ∧
    ((ctor recursive __isFreeRTOS D h o).run (handle c) w).trace =
      (if __isFreeRTOS = true then
        [.__get_freertos_mutex_for_ptr h (lookupFlag recursive), .__freertos_check_if_in_isr,
          if c.in_isr = true then
            .__freertos_mutex_take_from_isr (w.kernel_mutex h (lookupFlag recursive)) 0
          else .__freertos_mutex_take (w.kernel_mutex h (lookupFlag recursive))]
      else [tryEnter recursive h]) ∧
    ((dtor __isFreeRTOS g).run (handle c) w3).trace =
      (if __isFreeRTOS = true then
        [.__get_freertos_mutex_for_ptr h (lookupFlag recursive), .__freertos_check_if_in_isr,
          if c.in_isr = true then
            .__freertos_mutex_give_from_isr (w3.kernel_mutex h (lookupFlag recursive))
              g._pxHigherPriorityTaskWoken
          else .__freertos_mutex_give (w3.kernel_mutex h (lookupFlag recursive))]
      else [exitLock recursive h]) ∧
    (__isFreeRTOS = true → c.in_isr = true → ∃ w1,
      handle c (.__freertos_mutex_take_from_isr (w.kernel_mutex h (lookupFlag recursive)) 0) w =
        some ((true, g._pxHigherPriorityTaskWoken), w1)) ∧
    ((∃ m t, Prim.__freertos_mutex_give_from_isr m t ∈
          ((dtor __isFreeRTOS g).run (handle c) w3).trace) ↔
      (∃ m t, Prim.__freertos_mutex_take_from_isr m t ∈
          ((ctor recursive __isFreeRTOS D h o).run (handle c) w).trace)) ∧
    ((∃ m, Prim.__freertos_mutex_give m ∈ ((dtor __isFreeRTOS g).run (handle c) w3).trace) ↔
      (∃ m, Prim.__freertos_mutex_take m ∈
          ((ctor recursive __isFreeRTOS D h o).run (handle c) w).trace)) ∧
    (Prim.recursive_mutex_exit h ∈ ((dtor __isFreeRTOS g).run (handle c) w3).trace ↔
      (__isFreeRTOS = false ∧ recursive = true)) ∧
    (Prim.mutex_exit h ∈ ((dtor __isFreeRTOS g).run (handle c) w3).trace ↔
      (__isFreeRTOS = false ∧ recursive = false)) ∧
    (∀ (σ : Type) (H : Handler σ) (s s3 : σ) (g1 : Guard),
      ((ctor recursive false D h o).run H s).result = some g1 → g1._acquired = true →
      ((dtor false g1).run H s3).trace = [exitLock recursive h]) := by
  have hgen : ∀ (σ : Type) (H : Handler σ) (s s3 : σ) (g1 : Guard),
      ((ctor recursive false D h o).run H s).result = some g1 → g1._acquired = true →
      ((dtor false g1).run H s3).trace = [exitLock recursive h] := by
    intro σ H s s3 g1 h1 h2
    exact ((release_general H s s3 recursive false D h o g1 h1 h2).1 rfl).1
  cases __isFreeRTOS
  · obtain ⟨hd, hcount⟩ := (release_general (handle c) w w3 recursive false D h o g hret hacq).1 rfl
    have hc := run_ctor_bare_acquired c w recursive D h o g hret hacq
    rw [hd, hc]
    refine ⟨by rw [hd] at hcount; exact hcount, by simp, by simp, fun hf => by simp at hf,
      ?_, ?_, ?_, ?_, hgen⟩
    · cases recursive <;> simp
    · cases recursive <;> simp
    · cases recursive <;> simp
    · cases recursive <;> simp
  · have hm3 : handle c (.__get_freertos_mutex_for_ptr h (lookupFlag recursive)) w3 =
        some (w3.kernel_mutex h (lookupFlag recursive), w3) := rfl
    have hi3 : handle c .__freertos_check_if_in_isr w3 = some (c.in_isr, w3) := rfl
    obtain ⟨hd, hcount, m1, s1, isr, s2, hm1, hi1, hc, htok, _⟩ :=
      (release_general (handle c) w w3 recursive true D h o g hret hacq).2 rfl _ _ _ _ hm3 hi3
    have hm1a : handle c (.__get_freertos_mutex_for_ptr h (lookupFlag recursive)) w =
        some (w.kernel_mutex h (lookupFlag recursive), w) := rfl
    rw [hm1a] at hm1
    cases hm1
    have hi1a : handle c .__freertos_check_if_in_isr w = some (c.in_isr, w) := rfl
    rw [hi1a] at hi1
    cases hi1
    rw [hd, hc]
    refine ⟨by rw [hd] at hcount; exact hcount, by simp, by simp, ?_, ?_, ?_, ?_, ?_, hgen⟩
    · intro _ hisr
      obtain ⟨s6, h6⟩ := htok hisr
      exact ⟨s6, h6⟩
    · cases c.in_isr <;> simp
    · cases c.in_isr <;> simp
    · cases c.in_isr <;> simp
    · cases c.in_isr <;> simp

/-- Witness of C7: a plain-lock guard taken and given from interrupt context under
the kernel. -/
theorem symmetric_release_witness :
    ((ctor false true 1 5 0).run (handle c0isr) w0).result = some ⟨5, true, 0, 1, false⟩ ∧
    (⟨5, true, 0, 1, false⟩ : Guard)._acquired = true ∧
    ((dtor true ⟨5, true, 0, 1, false⟩).run (handle c0isr) wKernelHeld).trace =
      (if true = true then
        [.__get_freertos_mutex_for_ptr 5 (lookupFlag false), .__freertos_check_if_in_isr,
          if c0isr.in_isr = true then
            .__freertos_mutex_give_from_isr (wKernelHeld.kernel_mutex 5 (lookupFlag false))
              (⟨5, true, 0, 1, false⟩ : Guard)._pxHigherPriorityTaskWoken
          else .__freertos_mutex_give (wKernelHeld.kernel_mutex 5 (lookupFlag false))]
      else [exitLock false 5]) :=
  ⟨rfl, rfl, (symmetric_release c0isr w0 wKernelHeld false true 1 5 0
    ⟨5, true, 0, 1, false⟩ rfl rfl).2.2.1⟩

/-! ## C10: the option byte -/

/-- Bare-metal construction over a recursive lock that is free or owned by the
calling core: one successful try-acquire. -/
theorem run_ctor_recursive_enter (c : Ctx) (w : World) (D h o : Nat)
    (hown : (w.recursive_mutex h).owner = none ∨ (w.recursive_mutex h).owner = some c.core) :
    (ctor_recursive_mutex_t false D h o).run (handle c) w =
      { trace := [.recursive_mutex_try_enter h], result := some ⟨h, true, o, 0, true⟩,
        final := w.enterRecursive h c.core } := by
  have ht : tryResult (handle c) true h w =
      some ((true, c.uninit), w.enterRecursive h c.core) := by
    rcases hown with hn | hs
    · simp [tryResult, handle, hn]
    · simp [tryResult, handle, hs]
  exact run_ctor_bare_entered (handle c) w true D h o c.uninit _ ht

/-- Bare-metal destruction of an acquired recursive-lock guard: one exit. -/
theorem run_dtor_recursive (c : Ctx) (w : World) (g : Guard) (hacq : g._acquired = true)
    (hrec : g._recursive = true) :
    (dtor false g).run (handle c) w =
      { trace := [.recursive_mutex_exit g._mutex], result := some (),
        final := w.exitRecursive g._mutex } := by
  rw [dtor_bare g hacq, hrec]
  simp only [exitLock_true]
  rw [run_op_some (handle c) (.recursive_mutex_exit g._mutex) _ w ()
    (w.exitRecursive g._mutex) rfl]
  simp

/-- `k` exits of a recursive lock entered `n ≥ k` times by `core`. -/
theorem exited_iterate (core : Nat) (k n : Nat) (hk : k ≤ n) (hn : 0 < n) :
    RecursiveMutex.exited^[k] ⟨some core, n⟩ =
      ⟨if n - k = 0 then none else some core, n - k⟩ := by
  induction k with
  | zero =>
    have h1 : ¬ (n = 0) := by omega
    simp [h1]
  | succ j ih =>
    rw [Function.iterate_succ_apply', ih (by omega)]
    have h1 : ¬ (n - j = 0) := by omega
    simp only [RecursiveMutex.exited, h1, if_false]
    have h2 : n - j - 1 = n - (j + 1) := by omega
    rw [h2]

/-- The guard a successful recursive-lock construction returns. -/
theorem nest_spec (c : Ctx) (D h : Nat) (os : List Nat) :
    ∀ w : World,
      ((w.recursive_mutex h).owner = none ∨ (w.recursive_mutex h).owner = some c.core) →
      ∃ wN, nest c D h os w =
          some ((os.map (fun o => (⟨h, true, o, 0, true⟩ : Guard))).reverse,
            List.replicate os.length (.recursive_mutex_try_enter h), wN) ∧
        (wN.recursive_mutex h).enter_count = (w.recursive_mutex h).enter_count + os.length ∧
        (os ≠ [] → (wN.recursive_mutex h).owner = some c.core) ∧
        (os = [] → wN = w) := by
  induction os with
  | nil =>
    intro w _
    exact ⟨w, rfl, by simp, by simp, fun _ => rfl⟩
  | cons o rest ih =>
    intro w hown
    have h1 : ((w.enterRecursive h c.core).recursive_mutex h).owner = some c.core := by
      simp [World.enterRecursive, RecursiveMutex.entered]
    have h2 : ((w.enterRecursive h c.core).recursive_mutex h).enter_count =
        (w.recursive_mutex h).enter_count + 1 := by
      simp [World.enterRecursive, RecursiveMutex.entered]
    obtain ⟨wN, hn, hcount, hown2, hnil⟩ := ih (w.enterRecursive h c.core) (Or.inr h1)
    refine ⟨wN, ?_, ?_, ?_, fun hf => by simp at hf⟩
    · simp only [nest, run_ctor_recursive_enter c w D h o hown, hn]
      simp [List.replicate_succ]
    · rw [hcount, h2]
      simp only [List.length_cons]
      omega
    · intro _
      by_cases hr : rest = []
      · rw [hnil hr]
        exact h1
      · exact hown2 hr

/-- Destroying the `k` most recent of a stack of acquired guards over the recursive
lock `h` exits the lock `k` times. -/
theorem unnest_spec (c : Ctx) (h : Nat) :
    ∀ (k : Nat) (gs : List Guard) (w : World), k ≤ gs.length →
      (∀ g ∈ gs, g._acquired = true ∧ g._recursive = true ∧ g._mutex = h) →
      ∃ wk, unnest c k gs w = some wk ∧
        wk.recursive_mutex h = RecursiveMutex.exited^[k] (w.recursive_mutex h) := by
  intro k
  induction k with
  | zero =>
    intro gs w _ _
    exact ⟨w, by cases gs <;> rfl, rfl⟩
  | succ j ih =>
    intro gs w hk hall
    cases gs with
    | nil => simp at hk
    | cons g rest =>
      obtain ⟨ha, hr, hm⟩ := hall g (by simp)
      have hlen : j ≤ rest.length := by simpa using hk
      obtain ⟨wk, hu, hw⟩ := ih rest (w.exitRecursive h) hlen
        (fun g1 hg1 => hall g1 (by simp [hg1]))
      refine ⟨wk, ?_, ?_⟩
      · simp only [unnest, run_dtor_recursive c w g ha hr, hm]
        exact hu
      · rw [hw, Function.iterate_succ_apply]
        simp [World.exitRecursive]

/-- C6. Bare-metal, over the lock model with nested-ownership counting: one caller
constructing `N ≥ 1` nested guards (any option bytes) over the same free
recursive lock gets `_acquired = true` for all `N`, each construction being a
single successful try-acquire (so the self-deadlock branch is never taken and
nothing blocks), and the lock then has the caller's core as owner and nesting
count `N`.  Destroying the guards most recent first, the count is `k` after
`N - k` destructions, and the lock is free exactly when `k = 0`, that is after
the `N`th destruction. -/
theorem reentrant_nesting (c : Ctx) (D h : Nat) (os : List Nat) (hN : 1 ≤ os.length)
    (w : World) (hfree : w.recursive_mutex h = ⟨none, 0⟩) :
    ∃ gs wN,
      nest c D h os w =
        some (gs, List.replicate os.length (.recursive_mutex_try_enter h), wN) ∧
      gs.length = os.length ∧
      (∀ g ∈ gs, g._acquired = true) ∧
      wN.recursive_mutex h = ⟨some c.core, os.length⟩ ∧
      ∀ k, k ≤ os.length →
        ∃ wk, unnest c (os.length - k) gs wN = some wk ∧
          (wk.recursive_mutex h).enter_count = k ∧
          ((wk.recursive_mutex h).owner = none ↔ k = 0) := by
  have hne : os ≠ [] := by
    intro hf
    rw [hf] at hN
    simp at hN
  obtain ⟨wN, hn, hcount, hown, _⟩ := nest_spec c D h os w (Or.inl (by rw [hfree]))
  have hstate : wN.recursive_mutex h = ⟨some c.core, os.length⟩ := by
    have h1 := hown hne
    rw [hfree] at hcount
    simp only [zero_add] at hcount
    cases hx : wN.recursive_mutex h with
    | mk ow cnt =>
      rw [hx] at h1 hcount
      simp only at h1 hcount
      rw [h1, hcount]
  refine ⟨_, wN, hn, by simp, ?_, hstate, ?_⟩
  · intro g hg
    simp only [List.mem_reverse, List.mem_map] at hg
    obtain ⟨o, _, rfl⟩ := hg
    rfl
  · intro k hk
    obtain ⟨wk, hu, hw⟩ := unnest_spec c h (os.length - k)
      ((os.map (fun o => (⟨h, true, o, 0, true⟩ : Guard))).reverse) wN (by simp)
      (by
        intro g hg
        simp only [List.mem_reverse, List.mem_map] at hg
        obtain ⟨o, _, rfl⟩ := hg
        exact ⟨rfl, rfl, rfl⟩)
    refine ⟨wk, hu, ?_⟩
    rw [hw, hstate, exited_iterate c.core (os.length - k) os.length (by omega) (by omega)]
    have h2 : os.length - (os.length - k) = k := by omega
    rw [h2]
    by_cases h3 : k = 0 <;> simp [h3]

/-- Witness of C6: three nested guards, then two destructions leave count one. -/
theorem reentrant_nesting_witness :
    1 ≤ [1, 0, 1].length ∧ w0.recursive_mutex 7 = ⟨none, 0⟩ ∧
    ∃ gs wN,
      nest c0 1 7 [1, 0, 1] w0 =
        some (gs, List.replicate [1, 0, 1].length (.recursive_mutex_try_enter 7), wN) ∧
      gs.length = [1, 0, 1].length ∧
      (∀ g ∈ gs, g._acquired = true) ∧
      wN.recursive_mutex 7 = ⟨some c0.core, [1, 0, 1].length⟩ ∧
      ∀ k, k ≤ [1, 0, 1].length →
        ∃ wk, unnest c0 ([1, 0, 1].length - k) gs wN = some wk ∧
          (wk.recursive_mutex 7).enter_count = k ∧
          ((wk.recursive_mutex 7).owner = none ↔ k = 0) :=
  ⟨by decide, rfl, reentrant_nesting c0 1 7 [1, 0, 1] (by decide) w0 rfl⟩

/-! ## C1: mutual exclusion on a plain lock -/

/-- The bare-metal constructor of either kind starts with the try-acquire. -/
theorem stageProg_start (recursive : Bool) (D h o : Nat) :
    stageProg recursive D h o .start =
      if recursive then
        Prog.op (.recursive_mutex_try_enter h) (fun r =>
          if r.1 then Prog.ret ⟨h, true, o, 0, true⟩ else stageProg true D h o (.tried r.2))
      else
        Prog.op (.mutex_try_enter h) (fun r =>
          if r.1 then Prog.ret ⟨h, true, o, 0, false⟩ else stageProg false D h o (.tried r.2)) := by
  cases recursive
  · simp only [stageProg, ctor, Bool.false_eq_true, if_false, ctor_mutex_t_bare]
  · simp only [stageProg, ctor, if_true, ctor_recursive_mutex_t_bare]

/-- Only a finished plain-lock constructor that acquired holds a lock, and it
holds the lock it was given. -/
theorem stageProg_holds (recursive : Bool) (D h o : Nat) (st : Stage) (m : Handle) :
    (stageProg recursive D h o st).holds m ↔ st = .done true ∧ recursive = false ∧ h = m := by
  cases st with
  | start =>
    rw [stageProg_start]
    cases recursive <;> simp [Prog.holds]
  | tried owner => simp [stageProg, Prog.holds]
  | diag => simp [stageProg, Prog.holds]
  | waiting => cases recursive <;> simp [stageProg, Prog.holds]
  | done a => cases a <;> simp [stageProg, Prog.holds]

/-- One call of a bare-metal constructor: it moves to another stage, and either it
has just taken a plain lock that was free, or it holds no plain lock and the
plain locks are as before. -/
theorem step_stage (c : Ctx) (w : World) (recursive : Bool) (D h o : Nat) (st : Stage)
    (p : Prim) (q : Prog Guard) (w1 : World)
    (hs : (stageProg recursive D h o st).step (handle c) w = some (p, q, w1)) :
    (∃ st1, q = stageProg recursive D h o st1) ∧
    ((recursive = false ∧ w.mutex h = none ∧
        w1.mutex = Function.update w.mutex h (some c.core) ∧
        q = stageProg false D h o (.done true)) ∨
      (w1.mutex = w.mutex ∧ ∀ m, ¬ q.holds m)) := by
  cases st with
  | start =>
    rw [stageProg_start] at hs
    cases recursive
    · simp only [Bool.false_eq_true, if_false, Prog.step, handle] at hs
      cases hm : w.mutex h with
      | none =>
        simp only [hm, Option.some.injEq, Prod.mk.injEq] at hs
        obtain ⟨_, hq, hw⟩ := hs
        subst hq
        subst hw
        refine ⟨⟨.done true, by simp [stageProg]⟩, Or.inl ⟨rfl, rfl, rfl, by simp [stageProg]⟩⟩
      | some x =>
        simp only [hm, Option.some.injEq, Prod.mk.injEq] at hs
        obtain ⟨_, hq, hw⟩ := hs
        subst hq
        subst hw
        refine ⟨⟨.tried x, by simp⟩, Or.inr ⟨rfl, fun m => ?_⟩⟩
        simp [stageProg, Prog.holds]
    · simp only [if_true, Prog.step, handle] at hs
      cases hm : (w.recursive_mutex h).owner with
      | none =>
        simp only [hm, Option.some.injEq, Prod.mk.injEq] at hs
        obtain ⟨_, hq, hw⟩ := hs
        subst hq
        subst hw
        refine ⟨⟨.done true, by simp [stageProg]⟩, Or.inr ⟨rfl, fun m => ?_⟩⟩
        simp [Prog.holds]
      | some x =>
        simp only [hm] at hs
        by_cases hx : x = c.core
        · simp only [hx, if_true, Option.some.injEq, Prod.mk.injEq] at hs
          obtain ⟨_, hq, hw⟩ := hs
          subst hq
          subst hw
          refine ⟨⟨.done true, by simp [stageProg]⟩, Or.inr ⟨rfl, fun m => ?_⟩⟩
          simp [Prog.holds]
        · simp only [hx, if_false, Option.some.injEq, Prod.mk.injEq] at hs
          obtain ⟨_, hq, hw⟩ := hs
          subst hq
          subst hw
          refine ⟨⟨.tried x, by simp⟩, Or.inr ⟨rfl, fun m => ?_⟩⟩
          simp [stageProg, Prog.holds]
  | tried owner =>
    simp only [stageProg, Prog.step, handle, Option.some.injEq, Prod.mk.injEq] at hs
    obtain ⟨_, hq, hw⟩ := hs
    subst hq
    subst hw
    by_cases he : owner = c.core
    · by_cases hd : (o &&& D != 0) = true
      · refine ⟨⟨.diag, by simp [he, hd, stageProg]⟩, Or.inr ⟨rfl, fun m => ?_⟩⟩
        simp [he, hd, Prog.holds]
      · refine ⟨⟨.done false, by simp [he, hd, stageProg]⟩, Or.inr ⟨rfl, fun m => ?_⟩⟩
        simp [he, hd, Prog.holds]
    · refine ⟨⟨.waiting, by simp [he, stageProg]⟩, Or.inr ⟨rfl, fun m => ?_⟩⟩
      cases recursive <;> simp [he, Prog.holds]
  | diag =>
    simp only [stageProg, Prog.step, handle, Option.some.injEq, Prod.mk.injEq] at hs
    obtain ⟨_, hq, hw⟩ := hs
    subst hq
    subst hw
    refine ⟨⟨.done false, by simp [stageProg]⟩, Or.inr ⟨rfl, fun m => ?_⟩⟩
    simp [Prog.holds]
  | waiting =>
    cases recursive
    · simp only [stageProg, Bool.false_eq_true, if_false, Prog.step, handle] at hs
      cases hm : w.mutex h with
      | none =>
        simp only [hm, Option.some.injEq, Prod.mk.injEq] at hs
        obtain ⟨_, hq, hw⟩ := hs
        subst hq
        subst hw
        refine ⟨⟨.done true, by simp [stageProg]⟩, Or.inl ⟨rfl, rfl, rfl, by simp [stageProg]⟩⟩
      | some x =>
        simp [hm] at hs
    · simp only [stageProg, if_true, Prog.step, handle] at hs
      cases hm : (w.recursive_mutex h).owner with
      | none =>
        simp only [hm, Option.some.injEq, Prod.mk.injEq] at hs
        obtain ⟨_, hq, hw⟩ := hs
        subst hq
        subst hw
        refine ⟨⟨.done true, by simp [stageProg]⟩, Or.inr ⟨rfl, fun m => ?_⟩⟩
        simp [Prog.holds]
      | some x =>
        simp only [hm] at hs
        by_cases hx : x = c.core
        · simp only [hx, if_true, Option.some.injEq, Prod.mk.injEq] at hs
          obtain ⟨_, hq, hw⟩ := hs
          subst hq
          subst hw
          refine ⟨⟨.done true, by simp [stageProg]⟩, Or.inr ⟨rfl, fun m => ?_⟩⟩
          simp [Prog.holds]
        · simp [hx] at hs
  | done a =>
    simp [stageProg, Prog.step] at hs

/-- Bare-metal destruction in the lock model: it returns; an acquired plain-lock
guard frees its lock, any other guard leaves the plain locks as they are. -/
theorem run_dtor_world (c : Ctx) (w : World) (g : Guard) :
    ((dtor false g).run (handle c) w).result = some () ∧
    ((g._acquired = true ∧ g._recursive = false ∧
        ((dtor false g).run (handle c) w).final.mutex = Function.update w.mutex g._mutex none) ∨
      (¬ (g._acquired = true ∧ g._recursive = false) ∧
        ((dtor false g).run (handle c) w).final.mutex = w.mutex)) := by
  cases ha : g._acquired
  · rw [dtor_not_acquired false g ha]
    simp
  · cases hr : g._recursive
    · rw [dtor_bare g ha, hr]
      simp only [exitLock_false]
      rw [run_op_some (handle c) (.mutex_exit g._mutex) _ w ()
        { w with mutex := Function.update w.mutex g._mutex none } rfl]
      simp
    · rw [run_dtor_recursive c w g ha hr]
      simp [World.exitRecursive]

/-- The invariant holds before any guard exists. -/
theorem inv_init (D : Nat) (w : World) : Inv D (System.init w) := by
  refine ⟨?_, ?_, ?_⟩
  · intro j t hj
    simp [System.init] at hj
  · intro i j ti tj m hi
    simp [System.init] at hi
  · intro j t m hj
    simp [System.init] at hj

/-- Every move preserves the invariant. -/
theorem inv_step (D : Nat) (s s1 : System) (e : Event) (hinv : Inv D s)
    (hstep : s.step D e = some s1) : Inv D s1 := by
  obtain ⟨hshape, huniq, hheld⟩ := hinv
  cases e with
  | construct j c recursive mutex option =>
    simp only [System.step] at hstep
    cases hj : s.guards j with
    | some t => simp [hj] at hstep
    | none =>
      simp only [hj, Option.some.injEq] at hstep
      subst hstep
      have hnew : ∀ m, ¬ (ctor recursive false D mutex option).holds m := by
        intro m hm
        have := (stageProg_holds recursive D mutex option .start m).1 hm
        simp at this
      refine ⟨?_, ?_, ?_⟩
      · intro k t hk
        by_cases hkj : k = j
        · subst hkj
          simp only [Function.update_same, Option.some.injEq] at hk
          subst hk
          exact ⟨recursive, mutex, option, .start, rfl⟩
        · simp only [Function.update_noteq hkj] at hk
          exact hshape k t hk
      · intro i k ti tk m hi hk hti htk
        by_cases hij : i = j
        · subst hij
          simp only [Function.update_same, Option.some.injEq] at hi
          subst hi
          exact absurd hti (hnew m)
        · by_cases hkj : k = j
          · subst hkj
            simp only [Function.update_same, Option.some.injEq] at hk
            subst hk
            exact absurd htk (hnew m)
          · simp only [Function.update_noteq hij] at hi
            simp only [Function.update_noteq hkj] at hk
            exact huniq i k ti tk m hi hk hti htk
      · intro k t m hk ht
        by_cases hkj : k = j
        · subst hkj
          simp only [Function.update_same, Option.some.injEq] at hk
          subst hk
          exact absurd ht (hnew m)
        · simp only [Function.update_noteq hkj] at hk
          exact hheld k t m hk ht
  | advance j =>
    simp only [System.step] at hstep
    cases hj : s.guards j with
    | none => simp [hj] at hstep
    | some t =>
      simp only [hj] at hstep
      cases hp : t.prog.step (handle t.ctx) s.world with
      | none => simp [hp] at hstep
      | some x =>
        obtain ⟨p, q, w1⟩ := x
        simp only [hp, Option.some.injEq] at hstep
        subst hstep
        obtain ⟨recursive, h, o, st, hprog⟩ := hshape j t hj
        rw [hprog] at hp
        obtain ⟨⟨st1, hq⟩, hcase⟩ := step_stage t.ctx s.world recursive D h o st p q w1 hp
        refine ⟨?_, ?_, ?_⟩
        · intro k tk hk
          by_cases hkj : k = j
          · subst hkj
            simp only [Function.update_same, Option.some.injEq] at hk
            subst hk
            exact ⟨recursive, h, o, st1, hq⟩
          · simp only [Function.update_noteq hkj] at hk
            exact hshape k tk hk
        · intro i k ti tk m hi hk hti htk
          rcases hcase with ⟨_, hfree, _, hqd⟩ | ⟨_, hno⟩
          · -- slot j has just taken the free lock h
            have hother : ∀ a ta, a ≠ j → s.guards a = some ta → ¬ ta.prog.holds h := by
              intro a ta _ hta hh
              exact hheld a ta h hta hh hfree
            have hjm : ∀ m1, q.holds m1 → m1 = h := by
              intro m1 hm1
              rw [hqd] at hm1
              exact ((stageProg_holds false D h o (.done true) m1).1 hm1).2.2.symm
            by_cases hij : i = j
            · by_cases hkj : k = j
              · rw [hij, hkj]
              · subst hij
                simp only [Function.update_same, Option.some.injEq] at hi
                subst hi
                simp only [Function.update_noteq hkj] at hk
                have := hjm m hti
                subst this
                exact absurd htk (hother k tk hkj hk)
            · by_cases hkj : k = j
              · subst hkj
                simp only [Function.update_same, Option.some.injEq] at hk
                subst hk
                simp only [Function.update_noteq hij] at hi
                have := hjm m htk
                subst this
                exact absurd hti (hother i ti hij hi)
              · simp only [Function.update_noteq hij] at hi
                simp only [Function.update_noteq hkj] at hk
                exact huniq i k ti tk m hi hk hti htk
          · by_cases hij : i = j
            · subst hij
              simp only [Function.update_same, Option.some.injEq] at hi
              subst hi
              exact absurd hti (hno m)
            · by_cases hkj : k = j
              · subst hkj
                simp only [Function.update_same, Option.some.injEq] at hk
                subst hk
                exact absurd htk (hno m)
              · simp only [Function.update_noteq hij] at hi
                simp only [Function.update_noteq hkj] at hk
                exact huniq i k ti tk m hi hk hti htk
        · intro k tk m hk htk
          rcases hcase with ⟨_, hfree, hw1, hqd⟩ | ⟨hw1, hno⟩
          · simp only [hw1]
            by_cases hmh : m = h
            · subst hmh
              simp
            · rw [Function.update_noteq hmh]
              by_cases hkj : k = j
              · subst hkj
                simp only [Function.update_same, Option.some.injEq] at hk
                subst hk
                rw [hqd] at htk
                exact absurd ((stageProg_holds false D h o (.done true) m).1 htk).2.2.symm hmh
              · simp only [Function.update_noteq hkj] at hk
                exact hheld k tk m hk htk
          · simp only [hw1]
            by_cases hkj : k = j
            · subst hkj
              simp only [Function.update_same, Option.some.injEq] at hk
              subst hk
              exact absurd htk (hno m)
            · simp only [Function.update_noteq hkj] at hk
              exact hheld k tk m hk htk
  | destroy j =>
    simp only [System.step] at hstep
    cases hj : s.guards j with
    | none => simp [hj] at hstep
    | some t =>
      obtain ⟨c, prog⟩ := t
      cases prog with
      | op p k => simp [hj] at hstep
      | ret g =>
        simp only [hj] at hstep
        obtain ⟨hres, hcase⟩ := run_dtor_world c s.world g
        simp only [hres, Option.some.injEq] at hstep
        subst hstep
        refine ⟨?_, ?_, ?_⟩
        · intro k tk hk
          by_cases hkj : k = j
          · subst hkj
            simp at hk
          · simp only [Function.update_noteq hkj] at hk
            exact hshape k tk hk
        · intro i k ti tk m hi hk hti htk
          by_cases hij : i = j
          · subst hij
            simp at hi
          · by_cases hkj : k = j
            · subst hkj
              simp at hk
            · simp only [Function.update_noteq hij] at hi
              simp only [Function.update_noteq hkj] at hk
              exact huniq i k ti tk m hi hk hti htk
        · intro k tk m hk htk
          by_cases hkj : k = j
          · subst hkj
            simp at hk
          · simp only [Function.update_noteq hkj] at hk
            rcases hcase with ⟨ha, hr, hw1⟩ | ⟨_, hw1⟩
            · simp only [hw1]
              have hjholds : (Prog.ret g : Prog Guard).holds g._mutex := ⟨ha, hr, rfl⟩
              by_cases hmg : m = g._mutex
              · subst hmg
                exact absurd (huniq k j tk ⟨c, .ret g⟩ _ hk hj htk hjholds) hkj
              · rw [Function.update_noteq hmg]
                exact hheld k tk m hk htk
            · simp only [hw1]
              exact hheld k tk m hk htk

/-- The invariant holds in every reachable state. -/
theorem inv_exec (D : Nat) (es : List Event) :
    ∀ s s1 : System, Inv D s → System.exec D s es = some s1 → Inv D s1 := by
  induction es with
  | nil =>
    intro s s1 hinv hex
    simp only [System.exec, Option.some.injEq] at hex
    subst hex
    exact hinv
  | cons e rest ih =>
    intro s s1 hinv hex
    simp only [System.exec] at hex
    cases hst : s.step D e with
    | none => simp [hst] at hex
    | some s2 =>
      simp only [hst] at hex
      exact ih s2 s1 (inv_step D s s2 e hinv hst) hex

/-- C1. Bare-metal, with the plain lock following its contract (atomic try-acquire
reporting the owner, blocking acquire that completes only when the lock is
free, unconditional release) and any number of guards constructed and
destroyed by callers on any cores, their primitive calls interleaved in any
order: in every state reachable from a state without guards, two different
guard objects over the same `mutex_t` handle never both have
`_acquired = true`. -/
theorem mutual_exclusion (D : Nat) (w : World) (es : List Event) (s : System)
    (hreach : System.exec D (System.init w) es = some s)
    (i j : Nat) (hij : i ≠ j) (gi gj : Guard)
    (hi : s.guard i = some gi) (hj : s.guard j = some gj)
    (hri : gi._recursive = false) (hrj : gj._recursive = false)
    (hm : gi._mutex = gj._mutex) :
    ¬ (gi._acquired = true ∧ gj._acquired = true) := by
  obtain ⟨_, huniq, _⟩ := inv_exec D es (System.init w) s (inv_init D w) hreach
  rintro ⟨hai, haj⟩
  have hgi : ∃ c, s.guards i = some ⟨c, .ret gi⟩ := by
    unfold System.guard at hi
    cases hx : s.guards i with
    | none => simp [hx] at hi
    | some t =>
      obtain ⟨c, prog⟩ := t
      cases prog with
      | op p k => simp [hx] at hi
      | ret g =>
        simp only [hx, Option.some.injEq] at hi
        subst hi
        exact ⟨c, rfl⟩
  have hgj : ∃ c, s.guards j = some ⟨c, .ret gj⟩ := by
    unfold System.guard at hj
    cases hx : s.guards j with
    | none => simp [hx] at hj
    | some t =>
      obtain ⟨c, prog⟩ := t
      cases prog with
      | op p k => simp [hx] at hj
      | ret g =>
        simp only [hx, Option.some.injEq] at hj
        subst hj
        exact ⟨c, rfl⟩
  obtain ⟨ci, hgi⟩ := hgi
  obtain ⟨cj, hgj⟩ := hgj
  exact hij (huniq i j _ _ gi._mutex hgi hgj ⟨hai, hri, rfl⟩ ⟨haj, hrj, hm.symm⟩)

/-- Witness of C1: core 0 holds the plain lock 5 through the guard in slot 0; its
second guard, in slot 1, did not acquire. -/
theorem mutual_exclusion_witness :
    System.exec 1 (System.init w0) demoEvents = some demoSystem ∧
    (0 : Nat) ≠ 1 ∧
    demoSystem.guard 0 = some ⟨5, true, 0, 0, false⟩ ∧
    demoSystem.guard 1 = some ⟨5, false, 0, 0, false⟩ ∧
    ¬ ((⟨5, true, 0, 0, false⟩ : Guard)._acquired = true ∧
      (⟨5, false, 0, 0, false⟩ : Guard)._acquired = true) :=
  ⟨rfl, by decide, rfl, rfl,
    mutual_exclusion 1 w0 demoEvents demoSystem rfl 0 1 (by decide) ⟨5, true, 0, 0, false⟩
      ⟨5, false, 0, 0, false⟩ rfl rfl rfl rfl rfl⟩

/-! ## Moves of the system, one at a time -/

theorem step_construct (D : Nat) (s : System) (j : Nat) (c : Ctx) (recursive : Bool)
    (h o : Nat) (hj : s.guards j = none) :
    ∃ s1, s.step D (.construct j c recursive h o) = some s1 ∧ s1.world = s.world ∧
      s1.guards = Function.update s.guards j (some ⟨c, ctor recursive false D h o⟩) ∧
      s1.log = s.log := by
  simp [System.step, hj]

theorem step_advance (D : Nat) (s : System) (j : Nat) (c : Ctx) (prog : Prog Guard) (p : Prim)
    (q : Prog Guard) (w1 : World) (hj : s.guards j = some ⟨c, prog⟩)
    (hp : prog.step (handle c) s.world = some (p, q, w1)) :
    ∃ s1, s.step D (.advance j) = some s1 ∧ s1.world = w1 ∧
      s1.guards = Function.update s.guards j (some ⟨c, q⟩) ∧
      s1.log = s.log ++ [(j, p)] := by
  simp [System.step, hj, hp]

theorem exec_cons (D : Nat) (s s1 : System) (e : Event) (es : List Event)
    (h : s.step D e = some s1) : System.exec D s (e :: es) = System.exec D s1 es := by
  simp [System.exec, h]

theorem exec_nil (D : Nat) (s : System) : System.exec D s [] = some s := rfl

/-! ## C2: the owner re-enters a plain lock -/

/-- C2. Bare-metal, in any state where the plain lock `h` is held by the caller's
core: the caller constructing a further guard over `h` in a free slot
completes in the try-acquire, the core query and, when a `DebugEnable` bit of
the option byte is set, the diagnostic; the constructor has then returned with
`_acquired = false`, it made no call of `mutex_enter_blocking`, the lock
state (so the owner of `h`) is what it was, and every other guard object is
untouched, so a first guard with `_acquired` true still has it true. -/
theorem self_deadlock_avoided (D : Nat) (s : System) (j : Nat) (c : Ctx) (h o : Nat)
    (hheld : s.world.mutex h = some c.core) (hslot : s.guards j = none) :
    ∃ s1,
      System.exec D s (.construct j c false h o :: .advance j :: .advance j ::
        (if (o &&& D != 0) = true then [.advance j] else [])) = some s1 ∧
      s1.guard j = some ⟨h, false, o, 0, false⟩ ∧
      s1.log = s.log ++ [(j, .mutex_try_enter h), (j, .get_core_num)] ++
        (if (o &&& D != 0) = true then [(j, .DEBUGCORE "CoreMutex - Deadlock detected!\n")]
         else []) ∧
      (j, Prim.mutex_enter_blocking h) ∉ ([(j, Prim.mutex_try_enter h), (j, .get_core_num)] ++
        (if (o &&& D != 0) = true then [(j, Prim.DEBUGCORE "CoreMutex - Deadlock detected!\n")]
         else [])) ∧
      s1.world = s.world ∧
      s1.world.mutex h = some c.core ∧
      (∀ i, i ≠ j → s1.guards i = s.guards i) ∧
      (∀ i g1, s.guard i = some g1 → g1._acquired = true →
        s1.guard i = some g1 ∧ g1._acquired = true) := by
  have hframe : ∀ s1 : System, (∀ i, i ≠ j → s1.guards i = s.guards i) →
      ∀ i g1, s.guard i = some g1 → g1._acquired = true →
        s1.guard i = some g1 ∧ g1._acquired = true := by
    intro s1 hs1 i g1 hfirst hacq
    have hij : i ≠ j := by
      intro hf
      subst hf
      simp [System.guard, hslot] at hfirst
    refine ⟨?_, hacq⟩
    unfold System.guard at hfirst ⊢
    rw [hs1 i hij]
    exact hfirst
  -- the construction starts
  obtain ⟨s1, e1, hw1, hg1, hl1⟩ := step_construct D s j c false h o hslot
  -- the try-acquire fails and reports the calling core
  obtain ⟨s2, e2, hw2, hg2, hl2⟩ := step_advance D s1 j c (ctor false false D h o)
    (.mutex_try_enter h) (stageProg false D h o (.tried c.core)) s.world
    (by rw [hg1]; simp)
    (by
      rw [hw1]
      simp only [ctor, Bool.false_eq_true, if_false, ctor_mutex_t_bare, Prog.step, handle, hheld])
  -- the core query
  obtain ⟨s3, e3, hw3, hg3, hl3⟩ := step_advance D s2 j c (stageProg false D h o (.tried c.core))
    .get_core_num
    (if (o &&& D != 0) = true then stageProg false D h o .diag
      else stageProg false D h o (.done false)) s.world
    (by rw [hg2]; simp)
    (by
      rw [hw2]
      simp [stageProg, Prog.step, handle])
  rw [exec_cons D _ _ _ _ e1, exec_cons D _ _ _ _ e2, exec_cons D _ _ _ _ e3]
  by_cases hd : (o &&& D != 0) = true
  · simp only [hd, if_true] at hg3 ⊢
    obtain ⟨s4, e4, hw4, hg4, hl4⟩ := step_advance D s3 j c (stageProg false D h o .diag)
      (.DEBUGCORE "CoreMutex - Deadlock detected!\n")
      (stageProg false D h o (.done false)) s.world
      (by rw [hg3]; simp)
      (by rw [hw3]; simp [stageProg, Prog.step, handle])
    rw [exec_cons D _ _ _ _ e4, exec_nil]
    have hothers : ∀ i, i ≠ j → s4.guards i = s.guards i := by
      intro i hij
      rw [hg4, hg3, hg2, hg1]
      simp [Function.update_noteq hij]
    refine ⟨s4, rfl, ?_, ?_, ?_, hw4, by rw [hw4]; exact hheld, hothers, hframe s4 hothers⟩
    · simp [System.guard, hg4, stageProg]
    · rw [hl4, hl3, hl2, hl1]
      simp
    · simp
  · simp only [hd, Bool.false_eq_true, if_false] at hg3 ⊢
    rw [exec_nil]
    have hothers : ∀ i, i ≠ j → s3.guards i = s.guards i := by
      intro i hij
      rw [hg3, hg2, hg1]
      simp [Function.update_noteq hij]
    refine ⟨s3, rfl, ?_, ?_, ?_, hw3, by rw [hw3]; exact hheld, hothers, hframe s3 hothers⟩
    · simp [System.guard, hg3, stageProg]
    · rw [hl3, hl2, hl1]
      simp
    · simp

/-- Witness of C2: slot 0 holds the plain lock 5 for core 0, which constructs a
second guard in slot 1. -/
theorem self_deadlock_avoided_witness :
    demoHeld.world.mutex 5 = some c0.core ∧ demoHeld.guards 1 = none ∧
    demoHeld.guard 0 = some ⟨5, true, 0, 0, false⟩ ∧
    ∃ s1,
      System.exec 1 demoHeld (.construct 1 c0 false 5 0 :: .advance 1 :: .advance 1 ::
        (if (0 &&& 1 != 0) = true then [.advance 1] else [])) = some s1 ∧
      s1.guard 1 = some ⟨5, false, 0, 0, false⟩ ∧
      s1.world.mutex 5 = some c0.core ∧
      s1.guard 0 = some ⟨5, true, 0, 0, false⟩ :=
  ⟨rfl, rfl, rfl,
    match self_deadlock_avoided 1 demoHeld 1 c0 5 0 rfl rfl with
    | ⟨s1, h1, h2, _, _, _, h6, _, h8⟩ =>
      ⟨s1, h1, h2, h6, (h8 0 ⟨5, true, 0, 0, false⟩ rfl rfl).1⟩⟩

/-! ## C9: acquisition across cores -/

/-- A constructor waiting in the blocking acquire: whenever the call returns the
guard is acquired and the caller's core owns the lock; it returns when the
lock is free; it does not return while another core owns the lock. -/
theorem step_waiting (D : Nat) (s2 : System) (j : Nat) (c : Ctx) (recursive : Bool)
    (h o : Nat) (hj : s2.guards j = some ⟨c, stageProg recursive D h o .waiting⟩) :
    (∀ s3 : System, s2.step D (.advance j) = some s3 →
      s3.guard j = some ⟨h, true, o, 0, recursive⟩ ∧
      lockOwner s3.world recursive h = some c.core ∧
      s3.log = s2.log ++ [(j, enterBlocking recursive h)]) ∧
    (lockOwner s2.world recursive h = none → ∃ s3, s2.step D (.advance j) = some s3) ∧
    (∀ Y, lockOwner s2.world recursive h = some Y → Y ≠ c.core →
      s2.step D (.advance j) = none) := by
  cases recursive
  · simp only [System.step, hj, stageProg, Bool.false_eq_true, if_false, Prog.step, handle,
      lockOwner, enterBlocking_false]
    cases hm : s2.world.mutex h with
    | none => simp [System.guard]
    | some x => simp
  · simp only [System.step, hj, stageProg, if_true, Prog.step, handle, lockOwner,
      enterBlocking_true]
    cases hm : (s2.world.recursive_mutex h).owner with
    | none => simp [System.guard, World.enterRecursive, RecursiveMutex.entered]
    | some x =>
      by_cases hx : x = c.core
      · simp [hx, System.guard, World.enterRecursive, RecursiveMutex.entered]
      · simp [hx]

/-- The first move of a bare-metal constructor is the try-acquire. -/
theorem step_start (c : Ctx) (w : World) (recursive : Bool) (D h o : Nat) (r : Bool × Nat)
    (w1 : World) (ht : tryResult (handle c) recursive h w = some (r, w1)) :
    (ctor recursive false D h o).step (handle c) w =
      some (tryEnter recursive h,
        if r.1 then Prog.ret ⟨h, true, o, 0, recursive⟩
        else stageProg recursive D h o (.tried r.2), w1) := by
  cases recursive
  · simp only [tryResult, Bool.false_eq_true, if_false] at ht
    simp only [ctor, Bool.false_eq_true, if_false, ctor_mutex_t_bare, Prog.step, ht,
      tryEnter_false]
  · simp only [tryResult, if_true] at ht
    simp only [ctor, if_true, ctor_recursive_mutex_t_bare, Prog.step, ht, tryEnter_true]

/-- C9. Bare-metal, for either lock kind, a caller constructing a guard in a free
slot.  When the try-acquire fails and reports an owner other than the caller's
core: after the try-acquire and the core query, with no diagnostic and the
locks untouched, the constructor is in the blocking acquire on the same
handle; whatever else happens meanwhile, that call does not return while
another core owns the lock, returns once the lock is free, and whenever it
returns the constructor has returned `_acquired = true`, the caller's core
owns the lock, and the blocking acquire was called that once.  When the
try-acquire succeeds: the constructor returns `_acquired = true` after that
single call, without the blocking acquire, and the caller's core owns the
lock. -/
theorem cross_core_acquisition (D : Nat) (s : System) (j : Nat) (c : Ctx) (recursive : Bool)
    (h o : Nat) (hslot : s.guards j = none) :
    (∀ X w1, tryResult (handle c) recursive h s.world = some ((false, X), w1) → X ≠ c.core →
      ∃ s1,
        System.exec D s [.construct j c recursive h o, .advance j, .advance j] = some s1 ∧
        s1.world = s.world ∧
        s1.log = s.log ++ [(j, tryEnter recursive h), (j, .get_core_num)] ∧
        s1.pending j = some (enterBlocking recursive h) ∧
        ∀ s2 : System, s2.guards j = s1.guards j →
          (∀ s3 : System, s2.step D (.advance j) = some s3 →
            s3.guard j = some ⟨h, true, o, 0, recursive⟩ ∧
            lockOwner s3.world recursive h = some c.core ∧
            s3.log = s2.log ++ [(j, enterBlocking recursive h)]) ∧
          (lockOwner s2.world recursive h = none → ∃ s3, s2.step D (.advance j) = some s3) ∧
          (∀ Y, lockOwner s2.world recursive h = some Y → Y ≠ c.core →
            s2.step D (.advance j) = none)) ∧
    (∀ x w1, tryResult (handle c) recursive h s.world = some ((true, x), w1) →
      ∃ s1,
        System.exec D s [.construct j c recursive h o, .advance j] = some s1 ∧
        s1.guard j = some ⟨h, true, o, 0, recursive⟩ ∧
        s1.log = s.log ++ [(j, tryEnter recursive h)] ∧
        s1.world = w1 ∧
        lockOwner s1.world recursive h = some c.core) := by
  obtain ⟨s1, e1, hw1, hg1, hl1⟩ := step_construct D s j c recursive h o hslot
  constructor
  · intro X w1 ht hne
    obtain ⟨hw, _⟩ := tryResult_failed c s.world recursive h X w1 ht
    subst hw
    obtain ⟨s2, e2, hw2, hg2, hl2⟩ := step_advance D s1 j c (ctor recursive false D h o)
      (tryEnter recursive h) (stageProg recursive D h o (.tried X)) s.world
      (by rw [hg1]; simp)
      (by
        rw [hw1, step_start c s.world recursive D h o (false, X) s.world ht]
        simp)
    obtain ⟨s3, e3, hw3, hg3, hl3⟩ := step_advance D s2 j c
      (stageProg recursive D h o (.tried X)) .get_core_num
      (stageProg recursive D h o .waiting) s.world
      (by rw [hg2]; simp)
      (by
        rw [hw2]
        cases recursive <;> simp [stageProg, Prog.step, handle, hne])
    rw [exec_cons D _ _ _ _ e1, exec_cons D _ _ _ _ e2, exec_cons D _ _ _ _ e3, exec_nil]
    have hj3 : s3.guards j = some ⟨c, stageProg recursive D h o .waiting⟩ := by
      rw [hg3]
      simp
    refine ⟨s3, rfl, hw3, ?_, ?_, ?_⟩
    · rw [hl3, hl2, hl1]
      simp
    · unfold System.pending
      rw [hj3]
      cases recursive <;> simp [stageProg]
    · intro s2a hs2a
      exact step_waiting D s2a j c recursive h o (hs2a.trans hj3)
  · intro x w1 ht
    obtain ⟨s2, e2, hw2, hg2, hl2⟩ := step_advance D s1 j c (ctor recursive false D h o)
      (tryEnter recursive h) (Prog.ret ⟨h, true, o, 0, recursive⟩) w1
      (by rw [hg1]; simp)
      (by
        rw [hw1, step_start c s.world recursive D h o (true, x) w1 ht]
        simp)
    rw [exec_cons D _ _ _ _ e1, exec_cons D _ _ _ _ e2, exec_nil]
    refine ⟨s2, rfl, ?_, ?_, hw2, ?_⟩
    · simp [System.guard, hg2]
    · rw [hl2, hl1]
    · rw [hw2]
      exact tryResult_entered c s.world recursive h x w1 ht

/-- Witness of C9: slot 0 holds the plain lock 5 for core 0; core 1 constructs a
guard over it and reaches the blocking acquire. -/
theorem cross_core_acquisition_witness :
    demoHeld.guards 1 = none ∧
    tryResult (handle c1) false 5 demoHeld.world = some ((false, 0), demoHeld.world) ∧
    (0 : Nat) ≠ c1.core ∧
    ∃ s1,
      System.exec 1 demoHeld [.construct 1 c1 false 5 0, .advance 1, .advance 1] = some s1 ∧
      s1.world = demoHeld.world ∧
      s1.pending 1 = some (enterBlocking false 5) :=
  ⟨rfl, rfl, by decide,
    match (cross_core_acquisition 1 demoHeld 1 c1 false 5 0 rfl).1 0 demoHeld.world rfl
      (by decide) with
    | ⟨s1, h1, h2, _, h4, _⟩ => ⟨s1, h1, h2, h4⟩⟩

end CoreMutex
